import Mathlib

/-!
# RAS-A testing suite: the message correlation engine of `PassthroughTester`

A shallow embedding of `src/passthrough_tester.hpp`.

* The two `std::map`s of the class are total functions from the 64-bit key to a
  list: `operator[]` creates an absent entry as the empty list, which is what a
  total function returns for a key never written.
* A `std::shared_ptr<std::promise<mavlink_message_t>>` is the index of a promise
  in a store of shared states (`promises`); `std::make_shared` takes the next
  unused index (`allocated`).
* `receive` blocks in `fut.wait_for`.  The blocking call is cut at its
  suspension points: the first critical section (`receive_locked`), the return of
  `wait_for` (`wait_for`), the timeout branch that re-takes the lock
  (`receive_timed_out`) and `fut.get()` (`future_get`).  `System` holds the
  suspended activations and `step` interleaves them with the transport thread.
* Wall-clock time is not modelled: the event `Event.wait_for` on a call whose
  promise is still pending stands for "its `timeout_ms` has elapsed".
* `receive` and `expectCondition` are also given as whole calls, the way the
  calling thread runs them: the same pieces in program order, with the events of
  the other threads (a `Slot` per `receive`) placed between the steps of the call.
  The `for` loop of `expectCondition` keeps its `int` counter and its two tests.
-/

namespace RASATestingSuite

/-! ## Data model -/

/-- The fields of `mavlink_message_t` the engine reads (`msgid` is a 24-bit field of a
`uint32_t`, `sysid` and `compid` are `uint8_t`); the rest of the frame is `payload`. -/
structure mavlink_message_t where
  msgid : Nat
  sysid : Nat
  compid : Nat
  payload : List Nat
  deriving DecidableEq, Repr

/-- The ranges the C types give to the three key fields of an inbound message. -/
def mavlink_message_t.inRange (m : mavlink_message_t) : Prop :=
  m.msgid < 2 ^ 24 ∧ m.sysid < 2 ^ 8 ∧ m.compid < 2 ^ 8

instance (m : mavlink_message_t) : Decidable m.inRange := by
  unfold mavlink_message_t.inRange; infer_instance

/-- The struct `TestTargetAddress`: two `int` fields. -/
structure TestTargetAddress where
  system_id : Int
  component_id : Int
  deriving DecidableEq, Repr

/-- The `std::future_errc` value `std::promise::set_value` can throw with. -/
inductive future_errc where
  | promise_already_satisfied
  deriving DecidableEq, Repr

/-- What a call into the engine can throw: the class `TimeoutError` (a
`std::runtime_error` carrying its text) or a `std::future_error`. -/
inductive Exception where
  | TimeoutError (what : String)
  | future_error (code : future_errc)
  deriving DecidableEq, Repr

deriving instance DecidableEq for Except

/-- The result of `std::future::wait_for`. -/
inductive future_status where
  | ready
  | timeout
  deriving DecidableEq, Repr

/-- An instantiation `msg_helper<MSG>` of `passthrough_messages.hpp`: the message id, its
name and the decoder.  The decoder `mavlink_msg_*_decode` belongs to the MAVLink library
and is a parameter here; decoded structs are represented as lists of numbers. -/
structure msg_helper where
  ID : Nat
  NAME : String
  unpack : mavlink_message_t → List Nat

/-- The instantiation made by `USE_MESSAGE(heartbeat, HEARTBEAT)` (MAVLink id 0), with the
payload bytes standing for the decoded struct. -/
def HEARTBEAT : msg_helper := ⟨0, "HEARTBEAT", fun m => m.payload⟩

/-- The instantiation made by `USE_MESSAGE(param_value, PARAM_VALUE)` (MAVLink id 22), with
the payload bytes standing for the decoded struct. -/
def PARAM_VALUE : msg_helper := ⟨22, "PARAM_VALUE", fun m => m.payload⟩

/-- The state of a `PassthroughTester`: its two maps, and the store of the promises
created so far (`none`: no value set yet). -/
structure PassthroughTester where
  _promise_map : Nat → List Nat
  _message_queue_map : Nat → List mavlink_message_t
  promises : Nat → Option mavlink_message_t
  allocated : Nat

/-- A freshly constructed tester: both maps empty, no promise created. -/
def PassthroughTester.init : PassthroughTester :=
  { _promise_map := fun _ => []
    _message_queue_map := fun _ => []
    promises := fun _ => none
    allocated := 0 }

/-! ## The member functions -/

/-- The function `recMessageHash(uint32_t message_id, uint8_t sys_id, uint8_t comp_id)`:
the arguments are converted to the parameter types, widened to 64 bits, shifted and
or-ed. -/
def recMessageHash (message_id sys_id comp_id : Nat) : Nat :=
  ((((message_id % 2 ^ 32) <<< 16) % 2 ^ 64) ||| (((sys_id % 2 ^ 8) <<< 8) % 2 ^ 64)
    ||| (comp_id % 2 ^ 8))

/-- The key of an inbound message, as `passthroughIntercept` computes it. -/
def messageHash (message : mavlink_message_t) : Nat :=
  recMessageHash message.msgid message.sysid message.compid

/-- The call `prom->set_value(message)`: stores the value, or throws when one is there. -/
def set_value (promises : Nat → Option mavlink_message_t) (prom : Nat)
    (message : mavlink_message_t) : Except future_errc (Nat → Option mavlink_message_t) :=
  match promises prom with
  | none => .ok (Function.update promises prom (some message))
  | some _ => .error .promise_already_satisfied

/-- The `for` loop of `passthroughIntercept`: `set_value` on every promise of the list in
order; an exception leaves the loop with the stores written so far. -/
def resolveAll (promises : Nat → Option mavlink_message_t) (message : mavlink_message_t) :
    List Nat → (Nat → Option mavlink_message_t) × Option future_errc
  | [] => (promises, none)
  | prom :: rest =>
    match set_value promises prom message with
    | .ok promises1 => resolveAll promises1 message rest
    | .error e => (promises, some e)

/-- The member `passthroughIntercept`, one critical section.  The second component is the
exception that leaves the function, if any (then the waiter list is not cleared). -/
def passthroughIntercept (s : PassthroughTester) (message : mavlink_message_t) :
    PassthroughTester × Option future_errc :=
  let hash := recMessageHash message.msgid message.sysid message.compid
  if (s._promise_map hash).isEmpty then
    ({ s with _message_queue_map :=
          Function.update s._message_queue_map hash (s._message_queue_map hash ++ [message]) },
      none)
  else
    match resolveAll s.promises message (s._promise_map hash) with
    | (promises1, none) =>
      ({ s with promises := promises1, _promise_map := Function.update s._promise_map hash [] },
        none)
    | (promises1, some e) => ({ s with promises := promises1 }, some e)

/-- How the first critical section of `receive` ends: with the front of the backlog, or
with a new promise registered and the thread about to wait on its future. -/
inductive Locked where
  | front (msg : mavlink_message_t)
  | waiting (prom : Nat)
  deriving DecidableEq, Repr

/-- The first critical section of `receive<MSG>(src_sysid, src_compid, timeout_ms)`
(from taking the lock to `lock.unlock()` or to the end of the `else` branch). -/
def receive_locked (s : PassthroughTester) (MSG : msg_helper) (src_sysid src_compid : Nat) :
    PassthroughTester × Locked :=
  let hash := recMessageHash MSG.ID src_sysid src_compid
  match s._message_queue_map hash with
  | [] =>
    let prom := s.allocated
    ({ s with
        allocated := s.allocated + 1
        promises := Function.update s.promises prom none
        _promise_map := Function.update s._promise_map hash (s._promise_map hash ++ [prom]) },
      .waiting prom)
  | msg :: rest =>
    ({ s with _message_queue_map := Function.update s._message_queue_map hash rest },
      .front msg)

/-- The status `fut.wait_for(timeout)` returns with at the moment the wait ends: `ready`
when the promise holds a value; a wait that ends on a pending promise ended because the
time ran out. -/
def wait_for (s : PassthroughTester) (prom : Nat) : future_status :=
  if (s.promises prom).isSome then .ready else .timeout

/-- The timeout branch of `receive`: lock, clear the key's waiter list, unlock, throw. -/
def receive_timed_out (s : PassthroughTester) (MSG : msg_helper) (src_sysid src_compid : Nat) :
    PassthroughTester × Exception :=
  let hash := recMessageHash MSG.ID src_sysid src_compid
  ({ s with _promise_map := Function.update s._promise_map hash [] },
    .TimeoutError ("Message receive timeout for message " ++ MSG.NAME))

/-- The call `fut.get()` on a ready future. -/
def future_get (s : PassthroughTester) (prom : Nat) : Option mavlink_message_t :=
  s.promises prom

/-- The member `flush<MSG>(src_sysid, src_compid)`. -/
def flush (s : PassthroughTester) (MSG : msg_helper) (src_sysid src_compid : Nat) :
    PassthroughTester :=
  let hash := recMessageHash MSG.ID src_sysid src_compid
  { s with
    _promise_map := Function.update s._promise_map hash []
    _message_queue_map := Function.update s._message_queue_map hash [] }

/-- The member `flushAll()`. -/
def flushAll (s : PassthroughTester) : PassthroughTester :=
  { s with
    _promise_map := fun _ => []
    _message_queue_map := fun _ => [] }

/-! ## Threads -/

/-- The arguments of one call `receive<MSG>(src_sysid, src_compid, timeout_ms)`. -/
structure Call where
  MSG : msg_helper
  src_sysid : Nat
  src_compid : Nat
  timeout_ms : Nat

/-- The key a call waits on. -/
def Call.hash (c : Call) : Nat :=
  recMessageHash c.MSG.ID c.src_sysid c.src_compid

/-- An activation of `receive` that has registered its promise and not yet returned.
`timedOut` says that `wait_for` has returned `timeout` and the lock is not yet re-taken. -/
structure Frame where
  call : Call
  prom : Nat
  timedOut : Bool

/-- A finished call of `receive`: its arguments, the promise it waited on (`none` on the
fast path) and what it returned or threw. -/
structure Completed where
  call : Call
  prom : Option Nat
  result : Except Exception (List Nat)

/-- The tester together with the threads using it: suspended `receive` activations, the
finished calls (oldest first), the messages the transport has handed to
`passthroughIntercept` (oldest first) and the exceptions that left it. -/
structure System where
  tester : PassthroughTester
  calls : List Frame
  returned : List Completed
  delivered : List mavlink_message_t
  raised : List future_errc

/-- The system right after the constructor of `PassthroughTester`. -/
def System.init : System :=
  { tester := PassthroughTester.init, calls := [], returned := [], delivered := [], raised := [] }

/-- One atomic step of some thread. -/
inductive Event where
  | onMessage (message : mavlink_message_t)
  | receive (MSG : msg_helper) (src_sysid src_compid timeout_ms : Nat)
  | wait_for (prom : Nat)
  | relock (prom : Nat)
  | flush (MSG : msg_helper) (src_sysid src_compid : Nat)
  | flushAll

/-- The effect of one event.
* `onMessage`: the transport thread runs `passthroughIntercept`.
* `receive`: a thread enters `receive` and runs its first critical section; on the fast
  path the call returns at once, otherwise it is suspended.
* `wait_for prom`: the wait of the suspended call holding `prom` ends; when the future is
  ready the call returns the decoded value of `fut.get()`, otherwise it has timed out.
* `relock prom`: the timed-out call holding `prom` re-takes the lock, clears the waiter
  list of its key and throws.
* `flush`, `flushAll`: a thread runs the member of that name. -/
def step (s : System) : Event → System
  | .onMessage message =>
    let r := passthroughIntercept s.tester message
    { s with
      tester := r.1
      delivered := s.delivered ++ [message]
      raised := s.raised ++ r.2.toList }
  | .receive MSG src_sysid src_compid timeout_ms =>
    let call : Call := ⟨MSG, src_sysid, src_compid, timeout_ms⟩
    match receive_locked s.tester MSG src_sysid src_compid with
    | (t, .front msg) =>
      { s with tester := t, returned := s.returned ++ [⟨call, none, .ok (MSG.unpack msg)⟩] }
    | (t, .waiting prom) =>
      { s with tester := t, calls := s.calls ++ [⟨call, prom, false⟩] }
  | .wait_for prom =>
    match s.calls.find? (fun f => f.prom == prom && !f.timedOut) with
    | none => s
    | some f =>
      match wait_for s.tester prom with
      | .timeout =>
        { s with calls := s.calls.map (fun g => if g.prom = prom then { g with timedOut := true } else g) }
      | .ready =>
        match future_get s.tester prom with
        | none => s
        | some msg =>
          { s with
            calls := s.calls.filter (fun g => g.prom != prom)
            returned := s.returned ++ [⟨f.call, some prom, .ok (f.call.MSG.unpack msg)⟩] }
  | .relock prom =>
    match s.calls.find? (fun f => f.prom == prom && f.timedOut) with
    | none => s
    | some f =>
      let r := receive_timed_out s.tester f.call.MSG f.call.src_sysid f.call.src_compid
      { s with
        tester := r.1
        calls := s.calls.filter (fun g => g.prom != prom)
        returned := s.returned ++ [⟨f.call, some prom, .error r.2⟩] }
  | .flush MSG src_sysid src_compid =>
    { s with tester := flush s.tester MSG src_sysid src_compid }
  | .flushAll =>
    { s with tester := flushAll s.tester }

/-- Whether the event is the end of the wait of the call holding `prom`. -/
def Event.wakes (prom : Nat) : Event → Bool
  | .wait_for q => q == prom
  | _ => false

/-- Whether the event is a `flush` of key `K` or a `flushAll`. -/
def Event.flushes (K : Nat) : Event → Bool
  | .flush MSG src_sysid src_compid => recMessageHash MSG.ID src_sysid src_compid == K
  | .flushAll => true
  | _ => false

/-- Runs a sequence of events, first to last. -/
def run (s : System) (trace : List Event) : System :=
  trace.foldl step s

/-- The states an execution can be in. -/
def Reachable (s : System) : Prop :=
  ∃ trace, run System.init trace = s

/-- The invariant of the executions: every registered waiter is an existing, still
pending promise, registered once and under one key; every suspended call holds its own
promise, registered (if at all) under the key of the call; no key has waiters and a
backlog at once; nothing was thrown to the transport. -/
structure Inv (s : System) : Prop where
  pending : ∀ h p, p ∈ s.tester._promise_map h →
    p < s.tester.allocated ∧ s.tester.promises p = none
  nodup : ∀ h, (s.tester._promise_map h).Nodup
  one_key : ∀ h h1 p, p ∈ s.tester._promise_map h → p ∈ s.tester._promise_map h1 → h = h1
  frame_lt : ∀ f ∈ s.calls, f.prom < s.tester.allocated
  frame_nodup : s.calls.Pairwise (fun f g => f.prom ≠ g.prom)
  frame_key : ∀ f ∈ s.calls, ∀ h, f.prom ∈ s.tester._promise_map h → h = f.call.hash
  exclusive : ∀ h, s.tester._promise_map h = [] ∨ s.tester._message_queue_map h = []
  no_raise : s.raised = []

/-- Provenance relative to a moment of an execution at which `a0` promises had been created,
`n0` calls had finished and `d0` messages had been delivered: every message in the backlog
of `K`, every value held by the promise of a call on `K` that registered after that moment,
and every value returned since by a call on `K` that began after that moment, is a message
of key `K` delivered after that moment. -/
structure Since (K a0 n0 d0 : Nat) (s : System) : Prop where
  le : d0 ≤ s.delivered.length
  queued : ∀ m ∈ s.tester._message_queue_map K, m ∈ s.delivered.drop d0 ∧ messageHash m = K
  resolved : ∀ f ∈ s.calls, a0 ≤ f.prom → f.call.hash = K →
    ∀ m, s.tester.promises f.prom = some m → m ∈ s.delivered.drop d0 ∧ messageHash m = K
  handed : ∀ c ∈ s.returned.drop n0, (∀ p, c.prom = some p → a0 ≤ p) → c.call.hash = K →
    ∀ d, c.result = .ok d →
      ∃ m ∈ s.delivered.drop d0, messageHash m = K ∧ d = c.call.MSG.unpack m

/-- The promise `p` exists, holds no value and is in no waiter list, and every call on `p`
that finished after the first `n0` finished calls threw `TimeoutError`. -/
structure Discarded (p n0 : Nat) (s : System) : Prop where
  lt : p < s.tester.allocated
  pending : s.tester.promises p = none
  unlisted : ∀ h, p ∉ s.tester._promise_map h
  failed : ∀ c ∈ s.returned.drop n0, c.prom = some p →
    ∃ what, c.result = .error (.TimeoutError what)

/-! ## A call of `receive` and `expectCondition` as the calling thread sees it -/

/-- The conversion of an `int` argument to a `uint8_t` parameter. -/
def uint8_t (x : Int) : Nat := (x % 2 ^ 8).toNat

/-- The conversion of an `int` argument to a `uint32_t` parameter. -/
def uint32_t (x : Int) : Nat := (x % 2 ^ 32).toNat

/-- What the other threads do around one blocking call of `receive`: `before` the call
takes the lock, `during` its wait on the future, and (`late`) between the return of
`wait_for` with `timeout` and the re-taking of the lock. -/
structure Slot where
  before : List Event
  during : List Event
  late : List Event

/-- No other thread does anything. -/
def Slot.quiet : Slot := ⟨[], [], []⟩

/-- The transport delivers one message: before the call takes the lock (`early`) or while
the call waits. -/
def Slot.arrival (message : mavlink_message_t) (early : Bool) : Slot :=
  if early then ⟨[.onMessage message], [], []⟩ else ⟨[], [.onMessage message], []⟩

/-- Whether the event is the arrival of a message of a key other than `K`. -/
def Event.otherArrival (K : Nat) : Event → Bool
  | .onMessage message => messageHash message != K
  | _ => false

/-- Whether all that the other threads do in the slot is to deliver messages of keys other
than `K`. -/
def Slot.silentOn (K : Nat) (env : Slot) : Bool :=
  (env.before ++ env.during ++ env.late).all (Event.otherArrival K)

/-- The end of the wait of `receive`: `fut.wait_for` and, when it reports `ready`,
`fut.get()`; `none` stands for the status `timeout`. -/
def awaited (s : PassthroughTester) (prom : Nat) : Option mavlink_message_t :=
  match wait_for s prom with
  | .timeout => none
  | .ready => future_get s prom

/-- One call `receive<MSG>(src_sysid, src_compid, timeout_ms)` from its entry to its return
or throw, with the events `env` of the other threads placed around its steps.  The promise
of the call lives in the calling thread: no other thread ends this wait. -/
def receive (s : System) (MSG : msg_helper) (src_sysid src_compid timeout_ms : Nat)
    (env : Slot) : System × Except Exception (List Nat) :=
  let s0 := run s env.before
  match receive_locked s0.tester MSG src_sysid src_compid with
  | (t, .front msg) => ({ s0 with tester := t }, .ok (MSG.unpack msg))
  | (t, .waiting prom) =>
    let s1 := run { s0 with tester := t } env.during
    match awaited s1.tester prom with
    | some msg => (s1, .ok (MSG.unpack msg))
    | none =>
      let s2 := run s1 env.late
      let r := receive_timed_out s2.tester MSG src_sysid src_compid
      ({ s2 with tester := r.1 }, .error r.2)

/-- The overload `receive<MSG>(src_sysid, src_compid)`: the timeout is 100 ms. -/
def receive_default (s : System) (MSG : msg_helper) (src_sysid src_compid : Nat) (env : Slot) :
    System × Except Exception (List Nat) :=
  receive s MSG src_sysid src_compid 100 env

/-- What a call of `expectCondition` leaves behind: the state, the results of the `receive`
calls it made (in order; the condition is applied to each value received) and what it
returned or threw. -/
structure Poll where
  state : System
  observations : List (Except Exception (List Nat))
  result : Except Exception Bool

/-- The `for` loop of `expectCondition`, from the value `i` of its counter on; the slots of
`sched` are the doings of the other threads around the successive `receive` calls (none
once the list is used up). -/
def expectCondition_loop (MSG : msg_helper) (src_sysid src_compid : Nat)
    (observe_n inidividual_timeout : Int) (condition : List Nat → Bool) (i : Int) (s : System)
    (sched : List Slot) : Poll :=
  if i < observe_n then
    match receive s MSG src_sysid src_compid (uint32_t inidividual_timeout)
        (sched.headD Slot.quiet) with
    | (s1, .error e) => ⟨s1, [.error e], .error e⟩
    | (s1, .ok curr) =>
      if condition curr then ⟨s1, [.ok curr], .ok true⟩
      else if i = observe_n - 1 then ⟨s1, [.ok curr], .ok false⟩
      else
        let r := expectCondition_loop MSG src_sysid src_compid observe_n inidividual_timeout
          condition (i + 1) s1 sched.tail
        { r with observations := .ok curr :: r.observations }
  else ⟨s, [], .ok false⟩
termination_by (observe_n - i).toNat
decreasing_by omega

/-- The member `expectCondition<MSG>(src_sysid, src_compid, observe_n, inidividual_timeout,
condition)`: `flush`, then the loop. -/
def expectCondition (s : System) (MSG : msg_helper) (src_sysid src_compid : Nat)
    (observe_n inidividual_timeout : Int) (condition : List Nat → Bool) (sched : List Slot) :
    Poll :=
  expectCondition_loop MSG src_sysid src_compid observe_n inidividual_timeout condition 0
    { s with tester := flush s.tester MSG src_sysid src_compid } sched

/-- The overload `receive<MSG>(target, timeout_ms)`: the `int` fields of the target are
passed for the `uint8_t` parameters. -/
def receive_target (s : System) (MSG : msg_helper) (target : TestTargetAddress)
    (timeout_ms : Nat) (env : Slot) : System × Except Exception (List Nat) :=
  receive s MSG (uint8_t target.system_id) (uint8_t target.component_id) timeout_ms env

/-- The overload `receive<MSG>(target)`. -/
def receive_target_default (s : System) (MSG : msg_helper) (target : TestTargetAddress)
    (env : Slot) : System × Except Exception (List Nat) :=
  receive_default s MSG (uint8_t target.system_id) (uint8_t target.component_id) env

/-- The overload `expectCondition<MSG>(target, observe_n, inidividual_timeout, condition)`. -/
def expectCondition_target (s : System) (MSG : msg_helper) (target : TestTargetAddress)
    (observe_n inidividual_timeout : Int) (condition : List Nat → Bool) (sched : List Slot) :
    Poll :=
  expectCondition s MSG (uint8_t target.system_id) (uint8_t target.component_id) observe_n
    inidividual_timeout condition sched

/-- The overload `flush<MSG>(target)`. -/
def flush_target (s : PassthroughTester) (MSG : msg_helper) (target : TestTargetAddress) :
    PassthroughTester :=
  flush s MSG (uint8_t target.system_id) (uint8_t target.component_id)

/-- Promises that are not created yet hold no value. -/
def Fresh (s : System) : Prop :=
  ∀ p, s.tester.allocated ≤ p → s.tester.promises p = none

/-! ## Lemmas on the key -/

theorem recMessageHash_eq_add (a s c : Nat) :
    recMessageHash a s c = (a % 2 ^ 32) * 65536 + (s % 2 ^ 8) * 256 + c % 2 ^ 8 := by
  unfold recMessageHash
  have ha : a % 2 ^ 32 < 2 ^ 32 := Nat.mod_lt _ (by norm_num)
  have hs : s % 2 ^ 8 < 2 ^ 8 := Nat.mod_lt _ (by norm_num)
  have hc : c % 2 ^ 8 < 2 ^ 8 := Nat.mod_lt _ (by norm_num)
  generalize a % 2 ^ 32 = x at *
  generalize s % 2 ^ 8 = y at *
  generalize c % 2 ^ 8 = z at *
  rw [Nat.shiftLeft_eq, Nat.shiftLeft_eq]
  have h1 : x * 2 ^ 16 % 2 ^ 64 = 2 ^ 16 * x := by omega
  have h2 : y * 2 ^ 8 % 2 ^ 64 = 2 ^ 8 * y := by omega
  rw [h1, h2]
  have h3 : 2 ^ 8 * y < 2 ^ 16 := by omega
  rw [← Nat.mul_add_lt_is_or h3 x]
  have h4 : 2 ^ 16 * x + 2 ^ 8 * y = 2 ^ 8 * (2 ^ 8 * x + y) := by omega
  rw [h4, ← Nat.mul_add_lt_is_or hc]
  omega

theorem recMessageHash_inj {a s c a1 s1 c1 : Nat}
    (ha : a < 2 ^ 32) (hs : s < 2 ^ 8) (hc : c < 2 ^ 8)
    (ha1 : a1 < 2 ^ 32) (hs1 : s1 < 2 ^ 8) (hc1 : c1 < 2 ^ 8)
    (h : recMessageHash a s c = recMessageHash a1 s1 c1) : a = a1 ∧ s = s1 ∧ c = c1 := by
  rw [recMessageHash_eq_add, recMessageHash_eq_add] at h
  rw [Nat.mod_eq_of_lt ha, Nat.mod_eq_of_lt hs, Nat.mod_eq_of_lt hc,
    Nat.mod_eq_of_lt ha1, Nat.mod_eq_of_lt hs1, Nat.mod_eq_of_lt hc1] at h
  omega

/-! ## Lemmas on the dispatcher -/

theorem resolveAll_pending (message : mavlink_message_t) :
    ∀ (l : List Nat) (promises : Nat → Option mavlink_message_t), l.Nodup →
      (∀ p ∈ l, promises p = none) →
      resolveAll promises message l =
        (fun q => if q ∈ l then some message else promises q, none) := by
  intro l
  induction l with
  | nil => intro promises _ _; simp [resolveAll]
  | cons p rest ih =>
    intro promises hnd hp
    have hp0 : promises p = none := hp p (List.mem_cons_self _ _)
    rw [List.nodup_cons] at hnd
    have hrest : ∀ q ∈ rest, Function.update promises p (some message) q = none := by
      intro q hq
      have hne : q ≠ p := fun e => hnd.1 (e ▸ hq)
      rw [Function.update_noteq hne]
      exact hp q (List.mem_cons_of_mem _ hq)
    simp only [resolveAll, set_value, hp0]
    rw [ih _ hnd.2 hrest]
    congr 1
    funext q
    by_cases hq : q = p
    · subst hq; simp [hnd.1]
    · simp [hq, Function.update_noteq hq]

theorem passthroughIntercept_idle (s : PassthroughTester) (message : mavlink_message_t)
    (h : s._promise_map (messageHash message) = []) :
    passthroughIntercept s message =
      ({ s with
          _message_queue_map :=
            Function.update s._message_queue_map (messageHash message)
              (s._message_queue_map (messageHash message) ++ [message]) }, none) := by
  unfold messageHash at h
  simp [passthroughIntercept, messageHash, h]

theorem passthroughIntercept_broadcast (s : PassthroughTester) (message : mavlink_message_t)
    (hne : s._promise_map (messageHash message) ≠ [])
    (hnd : (s._promise_map (messageHash message)).Nodup)
    (hp : ∀ p ∈ s._promise_map (messageHash message), s.promises p = none) :
    passthroughIntercept s message =
      ({ s with
          promises := fun q =>
            if q ∈ s._promise_map (messageHash message) then some message else s.promises q
          _promise_map := Function.update s._promise_map (messageHash message) [] }, none) := by
  unfold messageHash at hne hnd hp
  have hemp : (s._promise_map (recMessageHash message.msgid message.sysid message.compid)).isEmpty
      = false := by
    cases hl : s._promise_map (recMessageHash message.msgid message.sysid message.compid) with
    | nil => exact absurd hl hne
    | cons a l => rfl
  simp only [passthroughIntercept, messageHash, hemp]
  rw [resolveAll_pending message _ _ hnd hp]
  simp

/-! ## The invariant holds in every execution -/

theorem inv_init : Inv System.init := by
  constructor <;> simp [System.init, PassthroughTester.init]

theorem inv_onMessage {s : System} (hs : Inv s) (message : mavlink_message_t) :
    Inv (step s (.onMessage message)) := by
  by_cases hl : s.tester._promise_map (messageHash message) = []
  · have e := passthroughIntercept_idle s.tester message hl
    simp only [step, e]
    constructor
    · exact hs.pending
    · exact hs.nodup
    · exact hs.one_key
    · exact hs.frame_lt
    · exact hs.frame_nodup
    · exact hs.frame_key
    · intro h
      by_cases hh : h = messageHash message
      · subst hh; exact Or.inl hl
      · simpa [Function.update_noteq hh] using hs.exclusive h
    · simpa using hs.no_raise
  · have e := passthroughIntercept_broadcast s.tester message hl (hs.nodup _)
      (fun p hp => (hs.pending _ p hp).2)
    simp only [step, e]
    constructor
    · intro h p hp
      by_cases hh : h = messageHash message
      · subst hh; simp at hp
      · simp only [Function.update_noteq hh] at hp
        refine ⟨(hs.pending h p hp).1, ?_⟩
        have : p ∉ s.tester._promise_map (messageHash message) :=
          fun hin => hh (hs.one_key _ _ p hp hin)
        simp [this, (hs.pending h p hp).2]
    · intro h
      by_cases hh : h = messageHash message
      · subst hh; simp
      · simpa [Function.update_noteq hh] using hs.nodup h
    · intro h h1 p hp hp1
      by_cases hh : h = messageHash message
      · subst hh; simp at hp
      · by_cases hh1 : h1 = messageHash message
        · subst hh1; simp at hp1
        · simp only [Function.update_noteq hh] at hp
          simp only [Function.update_noteq hh1] at hp1
          exact hs.one_key h h1 p hp hp1
    · exact hs.frame_lt
    · exact hs.frame_nodup
    · intro f hf h hp
      by_cases hh : h = messageHash message
      · subst hh; simp at hp
      · simp only [Function.update_noteq hh] at hp
        exact hs.frame_key f hf h hp
    · intro h
      by_cases hh : h = messageHash message
      · subst hh; simp
      · simpa [Function.update_noteq hh] using hs.exclusive h
    · simpa using hs.no_raise
theorem receive_locked_empty (s : PassthroughTester) (MSG : msg_helper) (sys comp : Nat)
    (h : s._message_queue_map (recMessageHash MSG.ID sys comp) = []) :
    receive_locked s MSG sys comp =
      ({ s with
          allocated := s.allocated + 1
          promises := Function.update s.promises s.allocated none
          _promise_map :=
            Function.update s._promise_map (recMessageHash MSG.ID sys comp)
              (s._promise_map (recMessageHash MSG.ID sys comp) ++ [s.allocated]) },
        .waiting s.allocated) := by
  simp [receive_locked, h]

theorem receive_locked_cons (s : PassthroughTester) (MSG : msg_helper) (sys comp : Nat)
    (msg : mavlink_message_t) (rest : List mavlink_message_t)
    (h : s._message_queue_map (recMessageHash MSG.ID sys comp) = msg :: rest) :
    receive_locked s MSG sys comp =
      ({ s with
          _message_queue_map :=
            Function.update s._message_queue_map (recMessageHash MSG.ID sys comp) rest },
        .front msg) := by
  simp [receive_locked, h]

theorem inv_receive {s : System} (hs : Inv s) (MSG : msg_helper) (sys comp t : Nat) :
    Inv (step s (.receive MSG sys comp t)) := by
  cases hq : s.tester._message_queue_map (recMessageHash MSG.ID sys comp) with
  | cons msg rest =>
    simp only [step, receive_locked_cons s.tester MSG sys comp msg rest hq]
    constructor
    · exact hs.pending
    · exact hs.nodup
    · exact hs.one_key
    · exact hs.frame_lt
    · exact hs.frame_nodup
    · exact hs.frame_key
    · intro h
      by_cases hh : h = recMessageHash MSG.ID sys comp
      · subst hh
        rcases hs.exclusive (recMessageHash MSG.ID sys comp) with h1 | h1
        · exact Or.inl h1
        · rw [hq] at h1; cases h1
      · simpa [Function.update_noteq hh] using hs.exclusive h
    · exact hs.no_raise
  | nil =>
    simp only [step, receive_locked_empty s.tester MSG sys comp hq]
    have hfresh : ∀ h, s.tester.allocated ∉ s.tester._promise_map h := by
      intro h hin
      exact Nat.lt_irrefl _ (hs.pending h _ hin).1
    constructor
    · intro h p hp
      by_cases hh : h = recMessageHash MSG.ID sys comp
      · subst hh
        simp only [Function.update_same, List.mem_append, List.mem_singleton] at hp
        rcases hp with hp | hp
        · have := hs.pending _ p hp
          have hne : p ≠ s.tester.allocated := Nat.ne_of_lt this.1
          exact ⟨Nat.lt_succ_of_lt this.1, by simp [Function.update_noteq hne, this.2]⟩
        · subst hp; simp
      · simp only [Function.update_noteq hh] at hp
        have := hs.pending _ p hp
        have hne : p ≠ s.tester.allocated := Nat.ne_of_lt this.1
        exact ⟨Nat.lt_succ_of_lt this.1, by simp [Function.update_noteq hne, this.2]⟩
    · intro h
      by_cases hh : h = recMessageHash MSG.ID sys comp
      · subst hh
        simp only [Function.update_same]
        rw [List.nodup_append]
        refine ⟨hs.nodup _, List.nodup_singleton _, ?_⟩
        intro a ha hb
        simp only [List.mem_singleton] at hb
        subst hb
        exact hfresh _ ha
      · simpa [Function.update_noteq hh] using hs.nodup h
    · intro h h1 p hp hp1
      by_cases hh : h = recMessageHash MSG.ID sys comp
      · by_cases hh1 : h1 = recMessageHash MSG.ID sys comp
        · rw [hh, hh1]
        · subst hh
          simp only [Function.update_same, List.mem_append, List.mem_singleton] at hp
          simp only [Function.update_noteq hh1] at hp1
          rcases hp with hp | hp
          · exact hs.one_key _ _ p hp hp1
          · subst hp; exact absurd hp1 (hfresh _)
      · by_cases hh1 : h1 = recMessageHash MSG.ID sys comp
        · subst hh1
          simp only [Function.update_same, List.mem_append, List.mem_singleton] at hp1
          simp only [Function.update_noteq hh] at hp
          rcases hp1 with hp1 | hp1
          · exact hs.one_key _ _ p hp hp1
          · subst hp1; exact absurd hp (hfresh _)
        · simp only [Function.update_noteq hh] at hp
          simp only [Function.update_noteq hh1] at hp1
          exact hs.one_key _ _ p hp hp1
    · intro f hf
      simp only [List.mem_append, List.mem_singleton] at hf
      rcases hf with hf | hf
      · exact Nat.lt_succ_of_lt (hs.frame_lt f hf)
      · subst hf; exact Nat.lt_succ_self _
    · rw [List.pairwise_append]
      refine ⟨hs.frame_nodup, List.pairwise_singleton _ _, ?_⟩
      intro f hf g hg
      simp only [List.mem_singleton] at hg
      subst hg
      exact Nat.ne_of_lt (hs.frame_lt f hf)
    · intro f hf h hp
      simp only [List.mem_append, List.mem_singleton] at hf
      by_cases hh : h = recMessageHash MSG.ID sys comp
      · subst hh
        simp only [Function.update_same, List.mem_append, List.mem_singleton] at hp
        rcases hf with hf | hf
        · rcases hp with hp | hp
          · exact hs.frame_key f hf _ hp
          · exact absurd hp (Nat.ne_of_lt (hs.frame_lt f hf))
        · subst hf; rfl
      · simp only [Function.update_noteq hh] at hp
        rcases hf with hf | hf
        · exact hs.frame_key f hf _ hp
        · subst hf; exact absurd hp (hfresh _)
    · intro h
      by_cases hh : h = recMessageHash MSG.ID sys comp
      · subst hh; exact Or.inr hq
      · simpa [Function.update_noteq hh] using hs.exclusive h
    · exact hs.no_raise
theorem inv_calls {s : System} (hs : Inv s) (calls1 : List Frame) (returned1 : List Completed)
    (hmem : ∀ g1 ∈ calls1, ∃ g ∈ s.calls, g1.prom = g.prom ∧ g1.call = g.call)
    (hpw : calls1.Pairwise (fun f g => f.prom ≠ g.prom)) :
    Inv { s with calls := calls1, returned := returned1 } := by
  constructor
  · exact hs.pending
  · exact hs.nodup
  · exact hs.one_key
  · intro f hf
    obtain ⟨g, hg, e1, _⟩ := hmem f hf
    simpa [e1] using hs.frame_lt g hg
  · exact hpw
  · intro f hf h hp
    obtain ⟨g, hg, e1, e2⟩ := hmem f hf
    simp only [e1] at hp
    simpa [e2] using hs.frame_key g hg h hp
  · exact hs.exclusive
  · exact hs.no_raise

theorem mark_mem (calls : List Frame) (prom : Nat) :
    ∀ g1 ∈ calls.map (fun g => if g.prom = prom then { g with timedOut := true } else g),
      ∃ g ∈ calls, g1.prom = g.prom ∧ g1.call = g.call := by
  intro g1 hg1
  rw [List.mem_map] at hg1
  obtain ⟨g, hg, e⟩ := hg1
  refine ⟨g, hg, ?_⟩
  subst e
  by_cases h : g.prom = prom <;> simp [h]

theorem mark_pairwise (calls : List Frame) (prom : Nat)
    (h : calls.Pairwise (fun f g => f.prom ≠ g.prom)) :
    (calls.map (fun g => if g.prom = prom then { g with timedOut := true } else g)).Pairwise
      (fun f g => f.prom ≠ g.prom) := by
  rw [List.pairwise_map]
  refine h.imp ?_
  intro a b hab
  by_cases ha : a.prom = prom <;> by_cases hb : b.prom = prom <;> simp [ha, hb] <;> omega

theorem drop_mem (calls : List Frame) (prom : Nat) :
    ∀ g1 ∈ calls.filter (fun g => g.prom != prom),
      ∃ g ∈ calls, g1.prom = g.prom ∧ g1.call = g.call := by
  intro g1 hg1
  exact ⟨g1, List.mem_of_mem_filter hg1, rfl, rfl⟩

theorem inv_wait_for {s : System} (hs : Inv s) (prom : Nat) :
    Inv (step s (.wait_for prom)) := by
  simp only [step]
  cases hfind : s.calls.find? (fun f => f.prom == prom && !f.timedOut) with
  | none => exact hs
  | some f =>
    simp only []
    cases hw : wait_for s.tester prom with
    | timeout =>
      exact inv_calls hs _ _ (mark_mem _ _) (mark_pairwise _ _ hs.frame_nodup)
    | ready =>
      simp only []
      cases hg : future_get s.tester prom with
      | none => exact hs
      | some msg =>
        exact inv_calls hs _ _ (drop_mem _ _) (hs.frame_nodup.filter _)

theorem inv_relock {s : System} (hs : Inv s) (prom : Nat) :
    Inv (step s (.relock prom)) := by
  simp only [step]
  cases hfind : s.calls.find? (fun f => f.prom == prom && f.timedOut) with
  | none => exact hs
  | some f =>
    simp only [receive_timed_out]
    constructor
    · intro h p hp
      by_cases hh : h = recMessageHash f.call.MSG.ID f.call.src_sysid f.call.src_compid
      · subst hh; simp at hp
      · simp only [Function.update_noteq hh] at hp
        exact hs.pending h p hp
    · intro h
      by_cases hh : h = recMessageHash f.call.MSG.ID f.call.src_sysid f.call.src_compid
      · subst hh; simp
      · simpa [Function.update_noteq hh] using hs.nodup h
    · intro h h1 p hp hp1
      by_cases hh : h = recMessageHash f.call.MSG.ID f.call.src_sysid f.call.src_compid
      · subst hh; simp at hp
      · by_cases hh1 : h1 = recMessageHash f.call.MSG.ID f.call.src_sysid f.call.src_compid
        · subst hh1; simp at hp1
        · simp only [Function.update_noteq hh] at hp
          simp only [Function.update_noteq hh1] at hp1
          exact hs.one_key h h1 p hp hp1
    · intro g hg
      exact hs.frame_lt g (List.mem_of_mem_filter hg)
    · exact hs.frame_nodup.filter _
    · intro g hg h hp
      by_cases hh : h = recMessageHash f.call.MSG.ID f.call.src_sysid f.call.src_compid
      · subst hh; simp at hp
      · simp only [Function.update_noteq hh] at hp
        exact hs.frame_key g (List.mem_of_mem_filter hg) h hp
    · intro h
      by_cases hh : h = recMessageHash f.call.MSG.ID f.call.src_sysid f.call.src_compid
      · subst hh; simp
      · simpa [Function.update_noteq hh] using hs.exclusive h
    · exact hs.no_raise

theorem inv_flush {s : System} (hs : Inv s) (MSG : msg_helper) (sys comp : Nat) :
    Inv (step s (.flush MSG sys comp)) := by
  simp only [step, flush]
  constructor
  · intro h p hp
    by_cases hh : h = recMessageHash MSG.ID sys comp
    · subst hh; simp at hp
    · simp only [Function.update_noteq hh] at hp
      exact hs.pending h p hp
  · intro h
    by_cases hh : h = recMessageHash MSG.ID sys comp
    · subst hh; simp
    · simpa [Function.update_noteq hh] using hs.nodup h
  · intro h h1 p hp hp1
    by_cases hh : h = recMessageHash MSG.ID sys comp
    · subst hh; simp at hp
    · by_cases hh1 : h1 = recMessageHash MSG.ID sys comp
      · subst hh1; simp at hp1
      · simp only [Function.update_noteq hh] at hp
        simp only [Function.update_noteq hh1] at hp1
        exact hs.one_key h h1 p hp hp1
  · exact hs.frame_lt
  · exact hs.frame_nodup
  · intro g hg h hp
    by_cases hh : h = recMessageHash MSG.ID sys comp
    · subst hh; simp at hp
    · simp only [Function.update_noteq hh] at hp
      exact hs.frame_key g hg h hp
  · intro h
    by_cases hh : h = recMessageHash MSG.ID sys comp
    · subst hh; simp
    · simpa [Function.update_noteq hh] using hs.exclusive h
  · exact hs.no_raise

theorem inv_flushAll {s : System} (hs : Inv s) : Inv (step s .flushAll) := by
  simp only [step, flushAll]
  constructor
  · intro h p hp; simp at hp
  · intro h; simp
  · intro h h1 p hp; simp at hp
  · exact hs.frame_lt
  · exact hs.frame_nodup
  · intro g hg h hp; simp at hp
  · intro h; simp
  · exact hs.no_raise

theorem inv_step {s : System} (hs : Inv s) (e : Event) : Inv (step s e) := by
  cases e with
  | onMessage message => exact inv_onMessage hs message
  | receive MSG sys comp t => exact inv_receive hs MSG sys comp t
  | wait_for prom => exact inv_wait_for hs prom
  | relock prom => exact inv_relock hs prom
  | flush MSG sys comp => exact inv_flush hs MSG sys comp
  | flushAll => exact inv_flushAll hs

theorem inv_run {s : System} (hs : Inv s) (trace : List Event) : Inv (run s trace) := by
  induction trace generalizing s with
  | nil => exact hs
  | cons e rest ih => exact ih (inv_step hs e)

theorem inv_reachable (trace : List Event) : Inv (run System.init trace) :=
  inv_run inv_init trace

/-! ## C1: the dispatcher either queues or broadcasts -/

/-- C1: in every state an execution reaches, `passthroughIntercept` on a message of key `K`
throws nothing and does one of two things.  When the waiter list of `K` is empty, the
message is appended at the end of the backlog of `K`, the waiter list stays empty and no
promise is touched.  When the waiter list of `K` is not empty, every waiter of the list
holds the value `message` afterwards, the waiter list is empty and the backlog of `K` is
the one from before (so the message was not appended). -/
theorem passthroughIntercept_queue_or_broadcast (trace : List Event)
    (message : mavlink_message_t) :
    (passthroughIntercept (run System.init trace).tester message).2 = none ∧
    ((run System.init trace).tester._promise_map (messageHash message) = [] →
      (passthroughIntercept (run System.init trace).tester message).1._message_queue_map
          (messageHash message) =
        (run System.init trace).tester._message_queue_map (messageHash message) ++ [message] ∧
      (passthroughIntercept (run System.init trace).tester message).1._promise_map
          (messageHash message) = [] ∧
      (passthroughIntercept (run System.init trace).tester message).1.promises =
        (run System.init trace).tester.promises) ∧
    ((run System.init trace).tester._promise_map (messageHash message) ≠ [] →
      (∀ p ∈ (run System.init trace).tester._promise_map (messageHash message),
        (passthroughIntercept (run System.init trace).tester message).1.promises p =
          some message) ∧
      (passthroughIntercept (run System.init trace).tester message).1._promise_map
          (messageHash message) = [] ∧
      (passthroughIntercept (run System.init trace).tester message).1._message_queue_map
          (messageHash message) =
        (run System.init trace).tester._message_queue_map (messageHash message) ∧
      (passthroughIntercept (run System.init trace).tester message).1._message_queue_map
          (messageHash message) ≠
        (run System.init trace).tester._message_queue_map (messageHash message) ++ [message]) := by
  have hs := inv_reachable trace
  generalize run System.init trace = s at hs
  by_cases hl : s.tester._promise_map (messageHash message) = []
  · rw [passthroughIntercept_idle s.tester message hl]
    refine ⟨rfl, fun _ => ⟨by simp, by simpa using hl, rfl⟩, fun h => absurd hl h⟩
  · rw [passthroughIntercept_broadcast s.tester message hl (hs.nodup _)
      (fun p hp => (hs.pending _ p hp).2)]
    refine ⟨rfl, fun h => absurd h hl, fun _ => ⟨?_, by simp, rfl, ?_⟩⟩
    · intro p hp; simp [hp]
    · simp

/-- An instance of C1 with two waiters registered on the key of the arriving message. -/
theorem passthroughIntercept_queue_or_broadcast_witness :
    (run System.init [.receive HEARTBEAT 1 1 100,
        .receive HEARTBEAT 1 1 100]).tester._promise_map
      (messageHash ⟨0, 1, 1, [7]⟩) = [0, 1] ∧
    (passthroughIntercept (run System.init [.receive HEARTBEAT 1 1 100,
        .receive HEARTBEAT 1 1 100]).tester
      ⟨0, 1, 1, [7]⟩).1.promises 1 = some ⟨0, 1, 1, [7]⟩ :=
  ⟨by decide,
    ((passthroughIntercept_queue_or_broadcast
      [.receive HEARTBEAT 1 1 100,
        .receive HEARTBEAT 1 1 100] ⟨0, 1, 1, [7]⟩).2.2
      (by decide)).1 1 (by decide)⟩

/-! ## Suspended calls -/

theorem frame_unique {calls : List Frame} (hpw : calls.Pairwise (fun f g => f.prom ≠ g.prom))
    {f g : Frame} (hf : f ∈ calls) (hg : g ∈ calls) (e : f.prom = g.prom) : f = g := by
  induction calls with
  | nil => cases hf
  | cons a l ih =>
    rw [List.pairwise_cons] at hpw
    rcases List.mem_cons.1 hf with hf1 | hf1 <;> rcases List.mem_cons.1 hg with hg1 | hg1
    · rw [hf1, hg1]
    · subst hf1; exact absurd e (hpw.1 g hg1)
    · subst hg1; exact absurd e.symm (hpw.1 f hf1)
    · exact ih hpw.2 hf1 hg1

theorem find_waiting {s : System} (hs : Inv s) {f : Frame} (hf : f ∈ s.calls)
    (hw : f.timedOut = false) :
    s.calls.find? (fun g => g.prom == f.prom && !g.timedOut) = some f := by
  cases hfind : s.calls.find? (fun g => g.prom == f.prom && !g.timedOut) with
  | none =>
    rw [List.find?_eq_none] at hfind
    have := hfind f hf
    simp [hw] at this
  | some g =>
    have hg := List.mem_of_find?_eq_some hfind
    have hp := List.find?_some hfind
    simp only [Bool.and_eq_true, beq_iff_eq] at hp
    rw [frame_unique hs.frame_nodup hg hf hp.1]

theorem find_timedOut {s : System} (hs : Inv s) {f : Frame} (hf : f ∈ s.calls)
    (hw : f.timedOut = true) :
    s.calls.find? (fun g => g.prom == f.prom && g.timedOut) = some f := by
  cases hfind : s.calls.find? (fun g => g.prom == f.prom && g.timedOut) with
  | none =>
    rw [List.find?_eq_none] at hfind
    have := hfind f hf
    simp [hw] at this
  | some g =>
    have hg := List.mem_of_find?_eq_some hfind
    have hp := List.find?_some hfind
    simp only [Bool.and_eq_true, beq_iff_eq] at hp
    rw [frame_unique hs.frame_nodup hg hf hp.1]

theorem find_timedOut_none {s : System} (hs : Inv s) {f : Frame} (hf : f ∈ s.calls)
    (hw : f.timedOut = false) :
    s.calls.find? (fun g => g.prom == f.prom && g.timedOut) = none := by
  cases hfind : s.calls.find? (fun g => g.prom == f.prom && g.timedOut) with
  | none => rfl
  | some g =>
    have hg := List.mem_of_find?_eq_some hfind
    have hp := List.find?_some hfind
    simp only [Bool.and_eq_true, beq_iff_eq] at hp
    rw [frame_unique hs.frame_nodup hg hf hp.1] at hp
    rw [hw] at hp
    exact absurd hp.2 (by simp)

/-- A suspended call whose promise holds a value keeps its frame and the value through
every event other than the end of its own wait. -/
theorem resolved_step {s : System} (hs : Inv s) {f : Frame} {message : mavlink_message_t}
    (hf : f ∈ s.calls) (hw : f.timedOut = false)
    (hv : s.tester.promises f.prom = some message) (e : Event)
    (he : e.wakes f.prom = false) :
    f ∈ (step s e).calls ∧ (step s e).tester.promises f.prom = some message := by
  have hnot : ∀ h, f.prom ∉ s.tester._promise_map h := by
    intro h hin
    have := (hs.pending h _ hin).2
    rw [hv] at this
    cases this
  cases e with
  | onMessage m =>
    by_cases hl : s.tester._promise_map (messageHash m) = []
    · simp only [step, passthroughIntercept_idle s.tester m hl]
      exact ⟨hf, hv⟩
    · simp only [step, passthroughIntercept_broadcast s.tester m hl (hs.nodup _)
        (fun p hp => (hs.pending _ p hp).2)]
      exact ⟨hf, by simp [hnot _, hv]⟩
  | receive MSG sys comp t =>
    cases hq : s.tester._message_queue_map (recMessageHash MSG.ID sys comp) with
    | cons msg rest =>
      simp only [step, receive_locked_cons s.tester MSG sys comp msg rest hq]
      exact ⟨hf, hv⟩
    | nil =>
      simp only [step, receive_locked_empty s.tester MSG sys comp hq]
      have hne : f.prom ≠ s.tester.allocated := Nat.ne_of_lt (hs.frame_lt f hf)
      exact ⟨List.mem_append_left _ hf, by simp [Function.update_noteq hne, hv]⟩
  | wait_for p =>
    have hp : p ≠ f.prom := by simpa [Event.wakes] using he
    simp only [step]
    cases hfind : s.calls.find? (fun g => g.prom == p && !g.timedOut) with
    | none => exact ⟨hf, hv⟩
    | some g =>
      simp only []
      cases hwf : wait_for s.tester p with
      | timeout =>
        refine ⟨?_, hv⟩
        simp only [List.mem_map]
        exact ⟨f, hf, by simp [Ne.symm hp]⟩
      | ready =>
        simp only []
        cases hg : future_get s.tester p with
        | none => exact ⟨hf, hv⟩
        | some msg =>
          refine ⟨?_, hv⟩
          simp only [List.mem_filter]
          exact ⟨hf, by simp [Ne.symm hp]⟩
  | relock p =>
    simp only [step]
    by_cases hp : p = f.prom
    · subst hp
      rw [find_timedOut_none hs hf hw]
      exact ⟨hf, hv⟩
    · cases hfind : s.calls.find? (fun g => g.prom == p && g.timedOut) with
      | none => exact ⟨hf, hv⟩
      | some g =>
        simp only [receive_timed_out]
        refine ⟨?_, hv⟩
        simp only [List.mem_filter]
        exact ⟨hf, by simp [Ne.symm hp]⟩
  | flush MSG sys comp => exact ⟨hf, hv⟩
  | flushAll => exact ⟨hf, hv⟩

theorem resolved_run {s : System} (hs : Inv s) {f : Frame} {message : mavlink_message_t}
    (hf : f ∈ s.calls) (hw : f.timedOut = false)
    (hv : s.tester.promises f.prom = some message) (rest : List Event)
    (hrest : ∀ e ∈ rest, e.wakes f.prom = false) :
    f ∈ (run s rest).calls ∧ (run s rest).tester.promises f.prom = some message := by
  induction rest generalizing s with
  | nil => exact ⟨hf, hv⟩
  | cons e rest ih =>
    have h1 := resolved_step hs hf hw hv e (hrest e (List.mem_cons_self _ _))
    exact ih (inv_step hs e) h1.1 h1.2 (fun e1 he1 => hrest e1 (List.mem_cons_of_mem _ he1))

/-- The end of the wait of a call whose promise holds a value: the call returns the decoded
value. -/
theorem wait_for_resolved {s : System} (hs : Inv s) {f : Frame} {message : mavlink_message_t}
    (hf : f ∈ s.calls) (hw : f.timedOut = false)
    (hv : s.tester.promises f.prom = some message) :
    step s (.wait_for f.prom) =
      { s with
        calls := s.calls.filter (fun g => g.prom != f.prom)
        returned := s.returned ++ [⟨f.call, some f.prom, .ok (f.call.MSG.unpack message)⟩] } := by
  simp [step, find_waiting hs hf hw, wait_for, future_get, hv]

/-! ## C2: one arrival reaches every registered waiter -/

/-- C2: let any number of `receive` calls be suspended as registered waiters of the key `K`
of `message` (each is a frame `f` that has not timed out and whose promise is in the waiter
list of `K`).  After `passthroughIntercept message`, whatever other events follow, the wait
of each of these calls ends with status `ready` and the call returns the decoding of
`message`; the backlog of `K` was empty and stays empty, so the message is not queued. -/
theorem broadcast_reaches_every_waiter (trace : List Event) (message : mavlink_message_t)
    (f : Frame) (hf : f ∈ (run System.init trace).calls) (hw : f.timedOut = false)
    (hreg : f.prom ∈ (run System.init trace).tester._promise_map (messageHash message))
    (rest : List Event) (hrest : ∀ e ∈ rest, e.wakes f.prom = false) :
    wait_for (run (step (run System.init trace) (.onMessage message)) rest).tester f.prom
      = .ready ∧
    (step (run (step (run System.init trace) (.onMessage message)) rest)
        (.wait_for f.prom)).returned =
      (run (step (run System.init trace) (.onMessage message)) rest).returned ++
        [⟨f.call, some f.prom, .ok (f.call.MSG.unpack message)⟩] ∧
    (run System.init trace).tester._message_queue_map (messageHash message) = [] ∧
    (step (run System.init trace) (.onMessage message)).tester._message_queue_map
      (messageHash message) = [] := by
  have hs := inv_reachable trace
  generalize run System.init trace = s at hs hf hreg
  have hl : s.tester._promise_map (messageHash message) ≠ [] :=
    List.ne_nil_of_mem hreg
  have hq : s.tester._message_queue_map (messageHash message) = [] := by
    rcases hs.exclusive (messageHash message) with h | h
    · exact absurd h hl
    · exact h
  have hs1 := inv_step hs (.onMessage message)
  have e1 : (step s (.onMessage message)).tester.promises f.prom = some message := by
    simp only [step, passthroughIntercept_broadcast s.tester message hl (hs.nodup _)
      (fun p hp => (hs.pending _ p hp).2)]
    simp [hreg]
  have e2 : (step s (.onMessage message)).tester._message_queue_map (messageHash message)
      = [] := by
    simp only [step, passthroughIntercept_broadcast s.tester message hl (hs.nodup _)
      (fun p hp => (hs.pending _ p hp).2)]
    exact hq
  have hf1 : f ∈ (step s (.onMessage message)).calls := hf
  have h2 := resolved_run hs1 hf1 hw e1 rest hrest
  have hs2 := inv_run hs1 rest
  refine ⟨by simp [wait_for, h2.2], ?_, hq, e2⟩
  rw [wait_for_resolved hs2 h2.1 hw h2.2]

/-- An instance of C2: two calls wait on the key of HEARTBEAT from (1, 1); the message
arrives, the first call wakes up, then the second one does. -/
theorem broadcast_reaches_every_waiter_witness :
    wait_for (run (step (run System.init
        [.receive HEARTBEAT 1 1 5000, .receive HEARTBEAT 1 1 5000])
        (.onMessage ⟨0, 1, 1, [7]⟩)) [.wait_for 0]).tester 1 = .ready ∧
    (step (run (step (run System.init
        [.receive HEARTBEAT 1 1 5000, .receive HEARTBEAT 1 1 5000])
        (.onMessage ⟨0, 1, 1, [7]⟩)) [.wait_for 0]) (.wait_for 1)).returned =
      (run (step (run System.init
        [.receive HEARTBEAT 1 1 5000, .receive HEARTBEAT 1 1 5000])
        (.onMessage ⟨0, 1, 1, [7]⟩)) [.wait_for 0]).returned ++
        [⟨⟨HEARTBEAT, 1, 1, 5000⟩, some 1, .ok (HEARTBEAT.unpack ⟨0, 1, 1, [7]⟩)⟩] ∧
    (run System.init [.receive HEARTBEAT 1 1 5000,
      .receive HEARTBEAT 1 1 5000]).tester._message_queue_map (messageHash ⟨0, 1, 1, [7]⟩) = [] ∧
    (step (run System.init [.receive HEARTBEAT 1 1 5000, .receive HEARTBEAT 1 1 5000])
      (.onMessage ⟨0, 1, 1, [7]⟩)).tester._message_queue_map (messageHash ⟨0, 1, 1, [7]⟩) = [] :=
  broadcast_reaches_every_waiter [.receive HEARTBEAT 1 1 5000, .receive HEARTBEAT 1 1 5000]
    ⟨0, 1, 1, [7]⟩ ⟨⟨HEARTBEAT, 1, 1, 5000⟩, 1, false⟩
    (List.Mem.tail _ (List.Mem.head _)) rfl (by decide) [.wait_for 0] (by decide)

/-! ## The steps of a suspended call -/

theorem step_receive_empty (s : System) (MSG : msg_helper) (sys comp t : Nat)
    (hq : s.tester._message_queue_map (recMessageHash MSG.ID sys comp) = []) :
    step s (.receive MSG sys comp t) =
      { s with
        tester :=
          { s.tester with
            allocated := s.tester.allocated + 1
            promises := Function.update s.tester.promises s.tester.allocated none
            _promise_map :=
              Function.update s.tester._promise_map (recMessageHash MSG.ID sys comp)
                (s.tester._promise_map (recMessageHash MSG.ID sys comp) ++ [s.tester.allocated]) }
        calls := s.calls ++ [⟨⟨MSG, sys, comp, t⟩, s.tester.allocated, false⟩] } := by
  simp only [step, receive_locked_empty s.tester MSG sys comp hq]

theorem step_receive_cons (s : System) (MSG : msg_helper) (sys comp t : Nat)
    (msg : mavlink_message_t) (rest : List mavlink_message_t)
    (hq : s.tester._message_queue_map (recMessageHash MSG.ID sys comp) = msg :: rest) :
    step s (.receive MSG sys comp t) =
      { s with
        tester :=
          { s.tester with
            _message_queue_map :=
              Function.update s.tester._message_queue_map (recMessageHash MSG.ID sys comp) rest }
        returned := s.returned ++ [⟨⟨MSG, sys, comp, t⟩, none, .ok (MSG.unpack msg)⟩] } := by
  simp only [step, receive_locked_cons s.tester MSG sys comp msg rest hq]

theorem step_wait_for_pending {s : System} (hs : Inv s) {f : Frame} (hf : f ∈ s.calls)
    (hw : f.timedOut = false) (hv : s.tester.promises f.prom = none) :
    step s (.wait_for f.prom) =
      { s with
        calls := s.calls.map
          (fun g => if g.prom = f.prom then { g with timedOut := true } else g) } := by
  simp [step, find_waiting hs hf hw, wait_for, hv]

theorem step_relock {s : System} (hs : Inv s) {f : Frame} (hf : f ∈ s.calls)
    (hw : f.timedOut = true) :
    step s (.relock f.prom) =
      { s with
        tester := { s.tester with _promise_map := Function.update s.tester._promise_map f.call.hash [] }
        calls := s.calls.filter (fun g => g.prom != f.prom)
        returned := s.returned ++ [⟨f.call, some f.prom,
          .error (.TimeoutError ("Message receive timeout for message " ++ f.call.MSG.NAME))⟩] } := by
  simp [step, find_timedOut hs hf hw, receive_timed_out, Call.hash]

/-- A call that finds the backlog of its key empty and whose wait ends before any other
event: it registers the promise `allocated`, times out, clears the waiter list of its key,
leaves the backlogs alone and throws `TimeoutError` with the name of its message. -/
theorem receive_times_out {s : System} (hs : Inv s) (MSG : msg_helper) (sys comp t : Nat)
    (hq : s.tester._message_queue_map (recMessageHash MSG.ID sys comp) = []) :
    (run s [.receive MSG sys comp t, .wait_for s.tester.allocated,
        .relock s.tester.allocated]).returned =
      s.returned ++ [⟨⟨MSG, sys, comp, t⟩, some s.tester.allocated,
        .error (.TimeoutError ("Message receive timeout for message " ++ MSG.NAME))⟩] ∧
    (run s [.receive MSG sys comp t, .wait_for s.tester.allocated,
        .relock s.tester.allocated]).tester._promise_map (recMessageHash MSG.ID sys comp) = [] ∧
    (run s [.receive MSG sys comp t, .wait_for s.tester.allocated,
        .relock s.tester.allocated]).tester._message_queue_map = s.tester._message_queue_map ∧
    (run s [.receive MSG sys comp t, .wait_for s.tester.allocated,
        .relock s.tester.allocated]).calls = s.calls := by
  have hs1 := inv_step hs (.receive MSG sys comp t)
  have e1 := step_receive_empty s MSG sys comp t hq
  have e3 : run s [.receive MSG sys comp t, .wait_for s.tester.allocated,
      .relock s.tester.allocated] =
        step (step (step s (.receive MSG sys comp t)) (.wait_for s.tester.allocated))
          (.relock s.tester.allocated) := rfl
  rw [e3]
  generalize step s (.receive MSG sys comp t) = s1 at hs1 e1
  have hf1 : (⟨⟨MSG, sys, comp, t⟩, s.tester.allocated, false⟩ : Frame) ∈ s1.calls := by
    rw [e1]; simp
  have hpend : s1.tester.promises s.tester.allocated = none := by
    rw [e1]; simp
  have e2 := step_wait_for_pending hs1 hf1 rfl hpend
  have hs2 := inv_step hs1 (.wait_for s.tester.allocated)
  simp only [] at e2
  generalize step s1 (.wait_for s.tester.allocated) = s2 at hs2 e2
  have hf2 : (⟨⟨MSG, sys, comp, t⟩, s.tester.allocated, true⟩ : Frame) ∈ s2.calls := by
    rw [e2]
    simp only [List.mem_map]
    exact ⟨_, hf1, by simp⟩
  have e4 := step_relock hs2 hf2 rfl
  simp only [] at e4
  rw [e4, e2, e1]
  refine ⟨rfl, by simp [Call.hash], rfl, ?_⟩
  simp only [List.map_append, List.filter_append, List.map_cons, List.map_nil]
  have hold : ∀ g ∈ s.calls, g.prom ≠ s.tester.allocated :=
    fun g hg => Nat.ne_of_lt (hs.frame_lt g hg)
  have hmap : s.calls.map
      (fun g => if g.prom = s.tester.allocated then { g with timedOut := true } else g)
      = s.calls := by
    conv_rhs => rw [← List.map_id s.calls]
    apply List.map_congr_left
    intro g hg
    simp [hold g hg]
  rw [hmap]
  have hfil : s.calls.filter (fun g => g.prom != s.tester.allocated) = s.calls := by
    rw [List.filter_eq_self]
    intro g hg
    simp [hold g hg]
  rw [hfil]
  simp
/-! ## C3: the backlog is first in, first out -/

theorem idle_run (K : Nat) (ms : List mavlink_message_t) :
    ∀ s : System, s.tester._promise_map K = [] → (∀ m ∈ ms, messageHash m = K) →
      (run s (ms.map .onMessage)).tester._promise_map = s.tester._promise_map ∧
      (run s (ms.map .onMessage)).tester._message_queue_map K =
        s.tester._message_queue_map K ++ ms ∧
      (run s (ms.map .onMessage)).tester.allocated = s.tester.allocated ∧
      (run s (ms.map .onMessage)).calls = s.calls ∧
      (run s (ms.map .onMessage)).returned = s.returned := by
  induction ms with
  | nil => intro s _ _; simp [run]
  | cons m ms ih =>
    intro s hl hK
    have hm : messageHash m = K := hK m (List.mem_cons_self _ _)
    have hl1 : s.tester._promise_map (messageHash m) = [] := by rw [hm]; exact hl
    have e1 : step s (.onMessage m) =
        { s with
          tester :=
            { s.tester with
              _message_queue_map :=
                Function.update s.tester._message_queue_map (messageHash m)
                  (s.tester._message_queue_map (messageHash m) ++ [m]) }
          delivered := s.delivered ++ [m]
          raised := s.raised ++ [] } := by
      simp only [step, passthroughIntercept_idle s.tester m hl1]
      rfl
    have h2 := ih (step s (.onMessage m)) (by rw [e1]; exact hl)
      (fun x hx => hK x (List.mem_cons_of_mem _ hx))
    have e2 : run s ((m :: ms).map .onMessage) = run (step s (.onMessage m)) (ms.map .onMessage) :=
      rfl
    rw [e2]
    obtain ⟨a1, a2, a3, a4, a5⟩ := h2
    rw [a1, a2, a3, a4, a5, e1]
    subst hm
    simp

theorem fast_run (MSG : msg_helper) (sys comp t : Nat) (ms : List mavlink_message_t) :
    ∀ (s : System) (tail : List mavlink_message_t),
      s.tester._message_queue_map (recMessageHash MSG.ID sys comp) = ms ++ tail →
      (run s (List.replicate ms.length (.receive MSG sys comp t))).returned =
        s.returned ++ ms.map (fun m => ⟨⟨MSG, sys, comp, t⟩, none, .ok (MSG.unpack m)⟩) ∧
      (run s (List.replicate ms.length (.receive MSG sys comp t))).tester._message_queue_map
        (recMessageHash MSG.ID sys comp) = tail ∧
      (run s (List.replicate ms.length (.receive MSG sys comp t))).tester._promise_map =
        s.tester._promise_map ∧
      (run s (List.replicate ms.length (.receive MSG sys comp t))).tester.allocated =
        s.tester.allocated ∧
      (run s (List.replicate ms.length (.receive MSG sys comp t))).calls = s.calls := by
  induction ms with
  | nil => intro s tail h; simpa [run] using h
  | cons m ms ih =>
    intro s tail hq
    have e1 := step_receive_cons s MSG sys comp t m (ms ++ tail) hq
    have h2 := ih (step s (.receive MSG sys comp t)) tail (by rw [e1]; simp)
    have e2 : run s (List.replicate (m :: ms).length (.receive MSG sys comp t)) =
        run (step s (.receive MSG sys comp t))
          (List.replicate ms.length (.receive MSG sys comp t)) := rfl
    rw [e2]
    obtain ⟨a1, a2, a3, a4, a5⟩ := h2
    rw [a1, a2, a3, a4, a5, e1]
    simp

/-- C3: let `ms` be messages of the key `K` of `receive<MSG>(sys, comp, t)`, handed one after
the other to `passthroughIntercept` in a state where `K` has no waiter and an empty backlog.
Then the backlog of `K` is `ms`; as many sequential `receive` calls return the decodings of
`ms` in arrival order, one message per call, on the fast path (no promise is created, no
waiter registered, no call suspended); the backlog of `K` is empty afterwards, and one more
`receive` on `K` with no arrival during its wait throws `TimeoutError`. -/
theorem backlog_fifo (trace : List Event) (MSG : msg_helper) (sys comp t : Nat)
    (ms : List mavlink_message_t)
    (hK : ∀ m ∈ ms, messageHash m = recMessageHash MSG.ID sys comp)
    (hw : (run System.init trace).tester._promise_map (recMessageHash MSG.ID sys comp) = [])
    (hq : (run System.init trace).tester._message_queue_map (recMessageHash MSG.ID sys comp) = []) :
    (run (run System.init trace) (ms.map .onMessage)).tester._message_queue_map
      (recMessageHash MSG.ID sys comp) = ms ∧
    (run (run (run System.init trace) (ms.map .onMessage))
        (List.replicate ms.length (.receive MSG sys comp t))).returned =
      (run System.init trace).returned ++
        ms.map (fun m => ⟨⟨MSG, sys, comp, t⟩, none, .ok (MSG.unpack m)⟩) ∧
    (run (run (run System.init trace) (ms.map .onMessage))
        (List.replicate ms.length (.receive MSG sys comp t))).calls =
      (run System.init trace).calls ∧
    (run (run (run System.init trace) (ms.map .onMessage))
        (List.replicate ms.length (.receive MSG sys comp t))).tester.allocated =
      (run System.init trace).tester.allocated ∧
    (run (run (run System.init trace) (ms.map .onMessage))
        (List.replicate ms.length (.receive MSG sys comp t))).tester._promise_map
      (recMessageHash MSG.ID sys comp) = [] ∧
    (run (run (run System.init trace) (ms.map .onMessage))
        (List.replicate ms.length (.receive MSG sys comp t))).tester._message_queue_map
      (recMessageHash MSG.ID sys comp) = [] ∧
    (run (run (run (run System.init trace) (ms.map .onMessage))
        (List.replicate ms.length (.receive MSG sys comp t)))
        [.receive MSG sys comp t, .wait_for (run System.init trace).tester.allocated,
          .relock (run System.init trace).tester.allocated]).returned =
      (run System.init trace).returned ++
        ms.map (fun m => ⟨⟨MSG, sys, comp, t⟩, none, .ok (MSG.unpack m)⟩) ++
        [⟨⟨MSG, sys, comp, t⟩, some (run System.init trace).tester.allocated,
          .error (.TimeoutError ("Message receive timeout for message " ++ MSG.NAME))⟩] := by
  have hs := inv_reachable trace
  generalize run System.init trace = s at hs hw hq
  obtain ⟨a1, a2, a3, a4, a5⟩ := idle_run _ ms s hw hK
  have hs1 := inv_run hs (ms.map .onMessage)
  generalize run s (ms.map .onMessage) = s1 at hs1 a1 a2 a3 a4 a5
  rw [hq, List.nil_append] at a2
  obtain ⟨b1, b2, b3, b4, b5⟩ := fast_run MSG sys comp t ms s1 [] (by simpa using a2)
  have hs2 := inv_run hs1 (List.replicate ms.length (.receive MSG sys comp t))
  generalize run s1 (List.replicate ms.length (.receive MSG sys comp t)) = s2
    at hs2 b1 b2 b3 b4 b5
  obtain ⟨c1, _, _, _⟩ := receive_times_out hs2 MSG sys comp t b2
  rw [b4, a3] at c1
  refine ⟨a2, ?_, ?_, ?_, ?_, b2, ?_⟩
  · rw [b1, a5]
  · rw [b5, a4]
  · rw [b4, a3]
  · rw [b3, a1, hw]
  · rw [c1, b1, a5]

/-- An instance of C3: two PARAM_VALUE messages from (1, 1) arrive at a fresh tester. -/
theorem backlog_fifo_witness :
    (run (run System.init []) ([⟨22, 1, 1, [1]⟩, ⟨22, 1, 1, [2]⟩].map .onMessage)
      ).tester._message_queue_map (recMessageHash PARAM_VALUE.ID 1 1) =
      [⟨22, 1, 1, [1]⟩, ⟨22, 1, 1, [2]⟩] ∧
    (run (run (run System.init []) ([⟨22, 1, 1, [1]⟩, ⟨22, 1, 1, [2]⟩].map .onMessage))
        (List.replicate 2 (.receive PARAM_VALUE 1 1 100))).returned =
      [⟨⟨PARAM_VALUE, 1, 1, 100⟩, none, .ok [1]⟩, ⟨⟨PARAM_VALUE, 1, 1, 100⟩, none, .ok [2]⟩] :=
  ⟨(backlog_fifo [] PARAM_VALUE 1 1 100 [⟨22, 1, 1, [1]⟩, ⟨22, 1, 1, [2]⟩]
      (by decide) (by decide) (by decide)).1,
    (backlog_fifo [] PARAM_VALUE 1 1 100 [⟨22, 1, 1, [1]⟩, ⟨22, 1, 1, [2]⟩]
      (by decide) (by decide) (by decide)).2.1⟩

/-! ## Provenance of what `receive` returns -/

theorem mem_drop_append {α : Type} {x : α} {l : List α} (r : List α) {n : Nat}
    (h : x ∈ l.drop n) : x ∈ (l ++ r).drop n := by
  rw [List.drop_append_eq_append_drop]
  exact List.mem_append_left _ h

theorem mem_drop_append_new {α : Type} (x : α) (l : List α) {n : Nat} (h : n ≤ l.length) :
    x ∈ (l ++ [x]).drop n := by
  rw [List.drop_append_eq_append_drop]
  have : n - l.length = 0 := Nat.sub_eq_zero_of_le h
  rw [this]
  simp

theorem mem_drop_append_cases {α : Type} {x y : α} {l : List α} {n : Nat}
    (h : x ∈ (l ++ [y]).drop n) : x ∈ l.drop n ∨ x = y := by
  rw [List.drop_append_eq_append_drop] at h
  rcases List.mem_append.1 h with h1 | h1
  · exact Or.inl h1
  · exact Or.inr (by simpa using List.mem_of_mem_drop h1)

theorem since_start {s : System} (hs : Inv s) (K : Nat)
    (hq : s.tester._message_queue_map K = []) :
    Since K s.tester.allocated s.returned.length s.delivered.length s := by
  constructor
  · exact Nat.le_refl _
  · intro m hm; rw [hq] at hm; cases hm
  · intro f hf hle
    exact absurd (hs.frame_lt f hf) (Nat.not_lt.2 hle)
  · intro c hc; simp at hc

theorem since_onMessage {K a0 n0 d0 : Nat} {s : System} (hs : Inv s) (h : Since K a0 n0 d0 s)
    (message : mavlink_message_t) : Since K a0 n0 d0 (step s (.onMessage message)) := by
  by_cases hl : s.tester._promise_map (messageHash message) = []
  · simp only [step, passthroughIntercept_idle s.tester message hl]
    constructor
    · simp only [List.length_append]; exact Nat.le_trans h.le (Nat.le_add_right _ _)
    · intro m hm
      by_cases hK : K = messageHash message
      · subst hK
        simp only [Function.update_same, List.mem_append, List.mem_singleton] at hm
        rcases hm with hm | hm
        · exact ⟨mem_drop_append _ (h.queued m hm).1, (h.queued m hm).2⟩
        · subst hm; exact ⟨mem_drop_append_new _ _ h.le, rfl⟩
      · simp only [Function.update_noteq hK] at hm
        exact ⟨mem_drop_append _ (h.queued m hm).1, (h.queued m hm).2⟩
    · intro f hf hle hk m hm
      exact ⟨mem_drop_append _ (h.resolved f hf hle hk m hm).1, (h.resolved f hf hle hk m hm).2⟩
    · intro c hc hp hk d hd
      obtain ⟨m, hm, e1, e2⟩ := h.handed c hc hp hk d hd
      exact ⟨m, mem_drop_append _ hm, e1, e2⟩
  · simp only [step, passthroughIntercept_broadcast s.tester message hl (hs.nodup _)
      (fun p hp => (hs.pending _ p hp).2)]
    constructor
    · simp only [List.length_append]; exact Nat.le_trans h.le (Nat.le_add_right _ _)
    · intro m hm
      exact ⟨mem_drop_append _ (h.queued m hm).1, (h.queued m hm).2⟩
    · intro f hf hle hk m hm
      by_cases hin : f.prom ∈ s.tester._promise_map (messageHash message)
      · simp only [hin, if_true, Option.some.injEq] at hm
        subst hm
        exact ⟨mem_drop_append_new _ _ h.le, by rw [hs.frame_key f hf _ hin, hk]⟩
      · simp only [hin, if_false] at hm
        exact ⟨mem_drop_append _ (h.resolved f hf hle hk m hm).1,
          (h.resolved f hf hle hk m hm).2⟩
    · intro c hc hp hk d hd
      obtain ⟨m, hm, e1, e2⟩ := h.handed c hc hp hk d hd
      exact ⟨m, mem_drop_append _ hm, e1, e2⟩

theorem since_receive {K a0 n0 d0 : Nat} {s : System} (hs : Inv s) (h : Since K a0 n0 d0 s)
    (MSG : msg_helper) (sys comp t : Nat) :
    Since K a0 n0 d0 (step s (.receive MSG sys comp t)) := by
  cases hq : s.tester._message_queue_map (recMessageHash MSG.ID sys comp) with
  | nil =>
    rw [step_receive_empty s MSG sys comp t hq]
    constructor
    · exact h.le
    · exact h.queued
    · intro f hf hle hk m hm
      simp only [List.mem_append, List.mem_singleton] at hf
      rcases hf with hf | hf
      · have hne : f.prom ≠ s.tester.allocated := Nat.ne_of_lt (hs.frame_lt f hf)
        simp only [Function.update_noteq hne] at hm
        exact h.resolved f hf hle hk m hm
      · subst hf; simp at hm
    · exact h.handed
  | cons msg rest =>
    rw [step_receive_cons s MSG sys comp t msg rest hq]
    constructor
    · exact h.le
    · intro m hm
      by_cases hK : K = recMessageHash MSG.ID sys comp
      · subst hK
        simp only [Function.update_same] at hm
        exact h.queued m (by rw [hq]; exact List.mem_cons_of_mem _ hm)
      · simp only [Function.update_noteq hK] at hm
        exact h.queued m hm
    · exact h.resolved
    · intro c hc hp hk d hd
      rcases mem_drop_append_cases hc with hc1 | hc1
      · exact h.handed c hc1 hp hk d hd
      · subst hc1
        simp only [Except.ok.injEq] at hd
        simp only [Call.hash] at hk
        have := h.queued msg (by rw [← hk, hq]; exact List.mem_cons_self _ _)
        exact ⟨msg, this.1, this.2, hd.symm⟩

theorem since_calls {K a0 n0 d0 : Nat} {s : System} (h : Since K a0 n0 d0 s)
    (calls1 : List Frame)
    (hmem : ∀ g1 ∈ calls1, ∃ g ∈ s.calls, g1.prom = g.prom ∧ g1.call = g.call) :
    Since K a0 n0 d0 { s with calls := calls1 } := by
  constructor
  · exact h.le
  · exact h.queued
  · intro f hf hle hk m hm
    obtain ⟨g, hg, e1, e2⟩ := hmem f hf
    simp only [e1] at hm hle
    rw [e2] at hk
    exact h.resolved g hg hle hk m hm
  · exact h.handed

theorem since_wait_for {K a0 n0 d0 : Nat} {s : System} (h : Since K a0 n0 d0 s)
    (prom : Nat) : Since K a0 n0 d0 (step s (.wait_for prom)) := by
  simp only [step]
  cases hfind : s.calls.find? (fun f => f.prom == prom && !f.timedOut) with
  | none => exact h
  | some f =>
    have hf := List.mem_of_find?_eq_some hfind
    have hp := List.find?_some hfind
    simp only [Bool.and_eq_true, beq_iff_eq] at hp
    simp only []
    cases hw : wait_for s.tester prom with
    | timeout => exact since_calls h _ (mark_mem _ _)
    | ready =>
      simp only []
      cases hg : future_get s.tester prom with
      | none => exact h
      | some msg =>
        simp only []
        constructor
        · exact h.le
        · exact h.queued
        · intro g hg1 hle hk m hm
          exact h.resolved g (List.mem_of_mem_filter hg1) hle hk m hm
        · intro c hc hpc hk d hd
          rcases mem_drop_append_cases hc with hc1 | hc1
          · exact h.handed c hc1 hpc hk d hd
          · subst hc1
            simp only [Except.ok.injEq] at hd
            have hle : a0 ≤ f.prom := by rw [hp.1]; exact hpc prom rfl
            have := h.resolved f hf hle hk msg (by rw [hp.1]; exact hg)
            exact ⟨msg, this.1, this.2, hd.symm⟩

theorem since_relock {K a0 n0 d0 : Nat} {s : System} (h : Since K a0 n0 d0 s)
    (prom : Nat) : Since K a0 n0 d0 (step s (.relock prom)) := by
  simp only [step]
  cases hfind : s.calls.find? (fun f => f.prom == prom && f.timedOut) with
  | none => exact h
  | some f =>
    simp only [receive_timed_out]
    constructor
    · exact h.le
    · exact h.queued
    · intro g hg1 hle hk m hm
      exact h.resolved g (List.mem_of_mem_filter hg1) hle hk m hm
    · intro c hc hpc hk d hd
      rcases mem_drop_append_cases hc with hc1 | hc1
      · exact h.handed c hc1 hpc hk d hd
      · subst hc1; cases hd

theorem since_step {K a0 n0 d0 : Nat} {s : System} (hs : Inv s) (h : Since K a0 n0 d0 s)
    (e : Event) : Since K a0 n0 d0 (step s e) := by
  cases e with
  | onMessage message => exact since_onMessage hs h message
  | receive MSG sys comp t => exact since_receive hs h MSG sys comp t
  | wait_for prom => exact since_wait_for h prom
  | relock prom => exact since_relock h prom
  | flush MSG sys comp =>
    simp only [step, flush]
    constructor
    · exact h.le
    · intro m hm
      by_cases hK : K = recMessageHash MSG.ID sys comp
      · subst hK; simp at hm
      · simp only [Function.update_noteq hK] at hm
        exact h.queued m hm
    · exact h.resolved
    · exact h.handed
  | flushAll =>
    simp only [step, flushAll]
    constructor
    · exact h.le
    · intro m hm; simp at hm
    · exact h.resolved
    · exact h.handed

theorem since_run {K a0 n0 d0 : Nat} {s : System} (hs : Inv s) (h : Since K a0 n0 d0 s)
    (trace : List Event) : Since K a0 n0 d0 (run s trace) := by
  induction trace generalizing s with
  | nil => exact h
  | cons e rest ih => exact ih (inv_step hs e) (since_step hs h e)

/-! ## C4: a call only returns messages of its own key -/

/-- C4: in every execution, a value `d` returned by a finished call `receive<MSG>(sys, comp, t)`
(whether taken from the backlog or handed over by a broadcast) is the decoding of a message
that was given to `passthroughIntercept` and whose `msgid`, `sysid` and `compid` are the id
of `MSG`, `sys` and `comp`.  The arguments and the message fields are in the ranges of their
C types. -/
theorem receive_returns_own_key (trace : List Event) (c : Completed) (d : List Nat)
    (hc : c ∈ (run System.init trace).returned) (hd : c.result = .ok d)
    (hid : c.call.MSG.ID < 2 ^ 32) (hsys : c.call.src_sysid < 2 ^ 8)
    (hcomp : c.call.src_compid < 2 ^ 8)
    (hin : ∀ m ∈ (run System.init trace).delivered, m.inRange) :
    ∃ m ∈ (run System.init trace).delivered,
      d = c.call.MSG.unpack m ∧ m.msgid = c.call.MSG.ID ∧ m.sysid = c.call.src_sysid ∧
        m.compid = c.call.src_compid := by
  have h0 : Since c.call.hash 0 0 0 System.init := since_start inv_init _ rfl
  have h := since_run inv_init h0 trace
  obtain ⟨m, hm, hk, e⟩ := h.handed c (by simpa using hc) (fun _ _ => Nat.zero_le _) rfl d hd
  have hm1 : m ∈ (run System.init trace).delivered := by simpa using hm
  obtain ⟨r1, r2, r3⟩ := hin m hm1
  have := recMessageHash_inj (Nat.lt_trans r1 (by norm_num)) r2 r3 hid hsys hcomp hk
  exact ⟨m, hm1, e, this.1, this.2.1, this.2.2⟩

/-- An instance of C4: a PARAM_VALUE message from (1, 1) and a HEARTBEAT from (1, 1) arrive,
then PARAM_VALUE is received. -/
theorem receive_returns_own_key_witness :
    ∃ m ∈ (run System.init [.onMessage ⟨0, 1, 1, [9]⟩, .onMessage ⟨22, 1, 1, [5]⟩,
        .receive PARAM_VALUE 1 1 100]).delivered,
      [5] = PARAM_VALUE.unpack m ∧ m.msgid = PARAM_VALUE.ID ∧ m.sysid = 1 ∧ m.compid = 1 :=
  receive_returns_own_key
    [.onMessage ⟨0, 1, 1, [9]⟩, .onMessage ⟨22, 1, 1, [5]⟩, .receive PARAM_VALUE 1 1 100]
    ⟨⟨PARAM_VALUE, 1, 1, 100⟩, none, .ok [5]⟩ [5] (List.Mem.head _) rfl
    (by decide) (by decide) (by decide) (by decide)

/-! ## C5: a timeout empties the whole waiter list of the key -/

/-- The wait of a suspended call ends on a pending promise and the call then runs its
timeout branch: the waiter list of its key is emptied, the backlogs are untouched and the
call throws `TimeoutError` with the name of its message. -/
theorem timeout_effect {s : System} (hs : Inv s) {f : Frame} (hf : f ∈ s.calls)
    (hw : f.timedOut = false) (hv : s.tester.promises f.prom = none) :
    (run s [.wait_for f.prom, .relock f.prom]).tester._promise_map f.call.hash = [] ∧
    (run s [.wait_for f.prom, .relock f.prom]).tester._message_queue_map =
      s.tester._message_queue_map ∧
    (run s [.wait_for f.prom, .relock f.prom]).tester.promises = s.tester.promises ∧
    (run s [.wait_for f.prom, .relock f.prom]).returned =
      s.returned ++ [⟨f.call, some f.prom,
        .error (.TimeoutError ("Message receive timeout for message " ++ f.call.MSG.NAME))⟩] := by
  have e0 : run s [.wait_for f.prom, .relock f.prom] =
      step (step s (.wait_for f.prom)) (.relock f.prom) := rfl
  rw [e0]
  have e1 := step_wait_for_pending hs hf hw hv
  have hs1 := inv_step hs (.wait_for f.prom)
  generalize step s (.wait_for f.prom) = s1 at e1 hs1
  have hf1 : ({ f with timedOut := true } : Frame) ∈ s1.calls := by
    rw [e1]
    simp only [List.mem_map]
    exact ⟨f, hf, by simp⟩
  have e2 := step_relock hs1 hf1 rfl
  simp only [] at e2
  rw [e2, e1]
  exact ⟨by simp, rfl, rfl, rfl⟩

/-- C5: in every execution state, (1) when the wait of a suspended `receive<MSG>` call (it
found the backlog of its key `K` empty and registered a waiter) ends while its promise is
still pending, `wait_for` reports `timeout` and the timeout branch leaves the waiter list of
`K` empty, whatever waiters it held, leaves every backlog as it was, and the call throws
`TimeoutError` with the text "Message receive timeout for message " followed by the name of
`MSG`; (2) a `receive` on a key with empty backlog and empty waiter list, with no arrival
during its wait, registers a waiter and fails in this way. -/
theorem timeout_clears_waiters (trace : List Event) :
    (∀ f ∈ (run System.init trace).calls, f.timedOut = false →
      (run System.init trace).tester.promises f.prom = none →
        wait_for (run System.init trace).tester f.prom = .timeout ∧
        (run (run System.init trace) [.wait_for f.prom, .relock f.prom]).tester._promise_map
          f.call.hash = [] ∧
        (run (run System.init trace) [.wait_for f.prom, .relock f.prom]).tester._message_queue_map
          = (run System.init trace).tester._message_queue_map ∧
        (run (run System.init trace) [.wait_for f.prom, .relock f.prom]).returned =
          (run System.init trace).returned ++ [⟨f.call, some f.prom,
            .error (.TimeoutError
              ("Message receive timeout for message " ++ f.call.MSG.NAME))⟩]) ∧
    (∀ (MSG : msg_helper) (sys comp t : Nat),
      (run System.init trace).tester._message_queue_map (recMessageHash MSG.ID sys comp) = [] →
      (run System.init trace).tester._promise_map (recMessageHash MSG.ID sys comp) = [] →
        (step (run System.init trace) (.receive MSG sys comp t)).tester._promise_map
          (recMessageHash MSG.ID sys comp) = [(run System.init trace).tester.allocated] ∧
        (run (run System.init trace) [.receive MSG sys comp t,
            .wait_for (run System.init trace).tester.allocated,
            .relock (run System.init trace).tester.allocated]).returned =
          (run System.init trace).returned ++
            [⟨⟨MSG, sys, comp, t⟩, some (run System.init trace).tester.allocated,
              .error (.TimeoutError ("Message receive timeout for message " ++ MSG.NAME))⟩] ∧
        (run (run System.init trace) [.receive MSG sys comp t,
            .wait_for (run System.init trace).tester.allocated,
            .relock (run System.init trace).tester.allocated]).tester._promise_map
          (recMessageHash MSG.ID sys comp) = [] ∧
        (run (run System.init trace) [.receive MSG sys comp t,
            .wait_for (run System.init trace).tester.allocated,
            .relock (run System.init trace).tester.allocated]).tester._message_queue_map
          (recMessageHash MSG.ID sys comp) = []) := by
  have hs := inv_reachable trace
  generalize run System.init trace = s at hs
  constructor
  · intro f hf hw hv
    obtain ⟨a1, a2, _, a4⟩ := timeout_effect hs hf hw hv
    exact ⟨by simp [wait_for, hv], a1, a2, a4⟩
  · intro MSG sys comp t hq hl
    obtain ⟨b1, b2, b3, _⟩ := receive_times_out hs MSG sys comp t hq
    refine ⟨?_, b1, b2, by rw [b3]; exact hq⟩
    rw [step_receive_empty s MSG sys comp t hq]
    simp [hl]

/-- An instance of C5: three calls wait on the key of HEARTBEAT from (1, 1); the first one
times out and the waiter list, which held all three, is empty. -/
theorem timeout_clears_waiters_witness :
    (run System.init [.receive HEARTBEAT 1 1 100, .receive HEARTBEAT 1 1 100,
        .receive HEARTBEAT 1 1 100]).tester._promise_map (recMessageHash 0 1 1) = [0, 1, 2] ∧
    (run (run System.init [.receive HEARTBEAT 1 1 100, .receive HEARTBEAT 1 1 100,
        .receive HEARTBEAT 1 1 100]) [.wait_for 0, .relock 0]).tester._promise_map
      (recMessageHash 0 1 1) = [] ∧
    (run (run System.init [.receive HEARTBEAT 1 1 100, .receive HEARTBEAT 1 1 100,
        .receive HEARTBEAT 1 1 100]) [.wait_for 0, .relock 0]).returned =
      (run System.init [.receive HEARTBEAT 1 1 100, .receive HEARTBEAT 1 1 100,
        .receive HEARTBEAT 1 1 100]).returned ++
        [⟨⟨HEARTBEAT, 1, 1, 100⟩, some 0,
          .error (.TimeoutError ("Message receive timeout for message " ++ "HEARTBEAT"))⟩] :=
  ⟨by decide,
    (((timeout_clears_waiters [.receive HEARTBEAT 1 1 100, .receive HEARTBEAT 1 1 100,
        .receive HEARTBEAT 1 1 100]).1 ⟨⟨HEARTBEAT, 1, 1, 100⟩, 0, false⟩
      (List.Mem.head _) rfl (by decide)).2.1),
    (((timeout_clears_waiters [.receive HEARTBEAT 1 1 100, .receive HEARTBEAT 1 1 100,
        .receive HEARTBEAT 1 1 100]).1 ⟨⟨HEARTBEAT, 1, 1, 100⟩, 0, false⟩
      (List.Mem.head _) rfl (by decide)).2.2.2)⟩

/-! ## Waiters removed from their list without a value -/

/-- A suspended call that has not timed out keeps its frame through every event other than
the end of its own wait. -/
theorem frame_step {s : System} (hs : Inv s) {f : Frame} (hf : f ∈ s.calls)
    (hw : f.timedOut = false) (e : Event) (he : e.wakes f.prom = false) :
    f ∈ (step s e).calls := by
  cases e with
  | onMessage m => exact hf
  | receive MSG sys comp t =>
    cases hq : s.tester._message_queue_map (recMessageHash MSG.ID sys comp) with
    | cons msg rest => rw [step_receive_cons s MSG sys comp t msg rest hq]; exact hf
    | nil => rw [step_receive_empty s MSG sys comp t hq]; exact List.mem_append_left _ hf
  | wait_for p =>
    have hp : p ≠ f.prom := by simpa [Event.wakes] using he
    simp only [step]
    cases hfind : s.calls.find? (fun g => g.prom == p && !g.timedOut) with
    | none => exact hf
    | some g =>
      simp only []
      cases hwf : wait_for s.tester p with
      | timeout =>
        simp only [List.mem_map]
        exact ⟨f, hf, by simp [Ne.symm hp]⟩
      | ready =>
        simp only []
        cases hg : future_get s.tester p with
        | none => exact hf
        | some msg =>
          simp only [List.mem_filter]
          exact ⟨hf, by simp [Ne.symm hp]⟩
  | relock p =>
    simp only [step]
    by_cases hp : p = f.prom
    · subst hp
      rw [find_timedOut_none hs hf hw]
      exact hf
    · cases hfind : s.calls.find? (fun g => g.prom == p && g.timedOut) with
      | none => exact hf
      | some g =>
        simp only [receive_timed_out, List.mem_filter]
        exact ⟨hf, by simp [Ne.symm hp]⟩
  | flush MSG sys comp => exact hf
  | flushAll => exact hf

theorem frame_run {s : System} (hs : Inv s) {f : Frame} (hf : f ∈ s.calls)
    (hw : f.timedOut = false) (rest : List Event)
    (hrest : ∀ e ∈ rest, e.wakes f.prom = false) : f ∈ (run s rest).calls := by
  induction rest generalizing s with
  | nil => exact hf
  | cons e rest ih =>
    exact ih (inv_step hs e) (frame_step hs hf hw e (hrest e (List.mem_cons_self _ _)))
      (fun e1 he1 => hrest e1 (List.mem_cons_of_mem _ he1))

theorem discarded_step {p n0 : Nat} {s : System} (hs : Inv s) (h : Discarded p n0 s)
    (e : Event) : Discarded p n0 (step s e) := by
  cases e with
  | onMessage m =>
    by_cases hl : s.tester._promise_map (messageHash m) = []
    · simp only [step, passthroughIntercept_idle s.tester m hl]
      exact ⟨h.lt, h.pending, h.unlisted, h.failed⟩
    · simp only [step, passthroughIntercept_broadcast s.tester m hl (hs.nodup _)
        (fun p hp => (hs.pending _ p hp).2)]
      refine ⟨h.lt, by simp [h.unlisted _, h.pending], ?_, h.failed⟩
      intro k
      by_cases hk : k = messageHash m
      · subst hk; simp
      · simpa [Function.update_noteq hk] using h.unlisted k
  | receive MSG sys comp t =>
    cases hq : s.tester._message_queue_map (recMessageHash MSG.ID sys comp) with
    | cons msg rest =>
      rw [step_receive_cons s MSG sys comp t msg rest hq]
      refine ⟨h.lt, h.pending, h.unlisted, ?_⟩
      intro c hc hp
      rcases mem_drop_append_cases hc with hc1 | hc1
      · exact h.failed c hc1 hp
      · subst hc1; cases hp
    | nil =>
      rw [step_receive_empty s MSG sys comp t hq]
      have hne : p ≠ s.tester.allocated := Nat.ne_of_lt h.lt
      refine ⟨Nat.lt_succ_of_lt h.lt, by simp [Function.update_noteq hne, h.pending], ?_,
        h.failed⟩
      intro k
      by_cases hk : k = recMessageHash MSG.ID sys comp
      · subst hk
        simp only [Function.update_same, List.mem_append, List.mem_singleton]
        exact fun hh => hh.elim (h.unlisted _) hne
      · simpa [Function.update_noteq hk] using h.unlisted k
  | wait_for q =>
    simp only [step]
    cases hfind : s.calls.find? (fun g => g.prom == q && !g.timedOut) with
    | none => exact h
    | some g =>
      simp only []
      cases hwf : wait_for s.tester q with
      | timeout => exact ⟨h.lt, h.pending, h.unlisted, h.failed⟩
      | ready =>
        simp only []
        cases hg : future_get s.tester q with
        | none => exact h
        | some msg =>
          refine ⟨h.lt, h.pending, h.unlisted, ?_⟩
          intro c hc hp
          rcases mem_drop_append_cases hc with hc1 | hc1
          · exact h.failed c hc1 hp
          · subst hc1
            simp only [Option.some.injEq] at hp
            subst hp
            simp only [future_get, h.pending] at hg
            cases hg
  | relock q =>
    simp only [step]
    cases hfind : s.calls.find? (fun g => g.prom == q && g.timedOut) with
    | none => exact h
    | some g =>
      simp only [receive_timed_out]
      refine ⟨h.lt, h.pending, ?_, ?_⟩
      · intro k
        by_cases hk : k = recMessageHash g.call.MSG.ID g.call.src_sysid g.call.src_compid
        · subst hk; simp
        · simpa [Function.update_noteq hk] using h.unlisted k
      · intro c hc hp
        rcases mem_drop_append_cases hc with hc1 | hc1
        · exact h.failed c hc1 hp
        · subst hc1; exact ⟨_, rfl⟩
  | flush MSG sys comp =>
    simp only [step, flush]
    refine ⟨h.lt, h.pending, ?_, h.failed⟩
    intro k
    by_cases hk : k = recMessageHash MSG.ID sys comp
    · subst hk; simp
    · simpa [Function.update_noteq hk] using h.unlisted k
  | flushAll =>
    simp only [step, flushAll]
    exact ⟨h.lt, h.pending, by simp, h.failed⟩

theorem discarded_run {p n0 : Nat} {s : System} (hs : Inv s) (h : Discarded p n0 s)
    (rest : List Event) : Discarded p n0 (run s rest) := by
  induction rest generalizing s with
  | nil => exact h
  | cons e rest ih => exact ih (inv_step hs e) (discarded_step hs h e)
theorem unlisted_of_clear {s : System} (hs : Inv s) {p K : Nat}
    (hreg : p ∈ s.tester._promise_map K) :
    ∀ h, p ∉ Function.update s.tester._promise_map K [] h := by
  intro h
  by_cases hk : h = K
  · subst hk; simp
  · rw [Function.update_noteq hk]
    exact fun hin => hk (hs.one_key _ _ p hin hreg)

theorem discarded_of_flush {s : System} (hs : Inv s) {f : Frame} (hf : f ∈ s.calls)
    (hreg : f.prom ∈ s.tester._promise_map f.call.hash) (e : Event)
    (he : e.flushes f.call.hash = true) :
    Discarded f.prom s.returned.length (step s e) ∧ (step s e).returned = s.returned ∧
      (step s e).calls = s.calls := by
  cases e with
  | flush MSG sys comp =>
    have hk : recMessageHash MSG.ID sys comp = f.call.hash := by simpa [Event.flushes] using he
    refine ⟨⟨hs.frame_lt f hf, (hs.pending _ _ hreg).2, ?_, by simp [step]⟩, rfl, rfl⟩
    simp only [step, flush, hk]
    exact unlisted_of_clear hs hreg
  | flushAll =>
    exact ⟨⟨hs.frame_lt f hf, (hs.pending _ _ hreg).2, by simp [step, flushAll],
      by simp [step]⟩, rfl, rfl⟩
  | onMessage m => simp [Event.flushes] at he
  | receive MSG sys comp t => simp [Event.flushes] at he
  | wait_for q => simp [Event.flushes] at he
  | relock q => simp [Event.flushes] at he

/-! ## C6: a flushed waiter is not cancelled, it times out -/

/-- C6, as the code behaves: let a `receive` call be suspended as a registered waiter of its
key and let `flush` of that key, or `flushAll`, discard the waiter.  The flush ends no call
(the call stays suspended, nothing is returned or thrown).  Whatever events follow, the
promise of the call never gets a value, so its wait can only end by its own timeout, and the
call then throws `TimeoutError`, as after an ordinary timeout; every call on this promise
that finishes after the flush threw `TimeoutError`. -/
theorem flushed_waiter_times_out (trace : List Event) (f : Frame)
    (hf : f ∈ (run System.init trace).calls) (hw : f.timedOut = false)
    (hreg : f.prom ∈ (run System.init trace).tester._promise_map f.call.hash)
    (e : Event) (he : e.flushes f.call.hash = true) (rest : List Event) :
    (step (run System.init trace) e).returned = (run System.init trace).returned ∧
    f ∈ (step (run System.init trace) e).calls ∧
    (∀ h, f.prom ∉ (step (run System.init trace) e).tester._promise_map h) ∧
    wait_for (run (step (run System.init trace) e) rest).tester f.prom = .timeout ∧
    (∀ c ∈ (run (step (run System.init trace) e) rest).returned.drop
        (run System.init trace).returned.length,
      c.prom = some f.prom → ∃ what, c.result = .error (.TimeoutError what)) ∧
    ((∀ e1 ∈ rest, e1.wakes f.prom = false) →
      (run (run (step (run System.init trace) e) rest)
          [.wait_for f.prom, .relock f.prom]).returned =
        (run (step (run System.init trace) e) rest).returned ++ [⟨f.call, some f.prom,
          .error (.TimeoutError ("Message receive timeout for message " ++ f.call.MSG.NAME))⟩]) := by
  have hs := inv_reachable trace
  generalize run System.init trace = s at hs hf hreg
  obtain ⟨hd, hret, hcalls⟩ := discarded_of_flush hs hf hreg e he
  have hs1 := inv_step hs e
  have hf1 : f ∈ (step s e).calls := by rw [hcalls]; exact hf
  have hd2 := discarded_run hs1 hd rest
  have hs2 := inv_run hs1 rest
  refine ⟨hret, hf1, hd.unlisted, by simp [wait_for, hd2.pending], hd2.failed, ?_⟩
  intro hrest
  exact (timeout_effect hs2 (frame_run hs1 hf1 hw rest hrest) hw hd2.pending).2.2.2

/-- An instance of the amended C6: a call waits for HEARTBEAT from (1, 1), the key is
flushed, a HEARTBEAT from (1, 1) arrives, and the wait of the call ends. -/
theorem flushed_waiter_times_out_witness :
    wait_for (run (step (run System.init [.receive HEARTBEAT 1 1 5000]) (.flush HEARTBEAT 1 1))
      [.onMessage ⟨0, 1, 1, [7]⟩]).tester 0 = .timeout ∧
    (run (run (step (run System.init [.receive HEARTBEAT 1 1 5000]) (.flush HEARTBEAT 1 1))
        [.onMessage ⟨0, 1, 1, [7]⟩]) [.wait_for 0, .relock 0]).returned =
      (run (step (run System.init [.receive HEARTBEAT 1 1 5000]) (.flush HEARTBEAT 1 1))
        [.onMessage ⟨0, 1, 1, [7]⟩]).returned ++ [⟨⟨HEARTBEAT, 1, 1, 5000⟩, some 0,
          .error (.TimeoutError ("Message receive timeout for message " ++ "HEARTBEAT"))⟩] :=
  ⟨(flushed_waiter_times_out [.receive HEARTBEAT 1 1 5000] ⟨⟨HEARTBEAT, 1, 1, 5000⟩, 0, false⟩
      (List.Mem.head _) rfl (by decide) (.flush HEARTBEAT 1 1) (by decide)
      [.onMessage ⟨0, 1, 1, [7]⟩]).2.2.2.1,
    (flushed_waiter_times_out [.receive HEARTBEAT 1 1 5000] ⟨⟨HEARTBEAT, 1, 1, 5000⟩, 0, false⟩
      (List.Mem.head _) rfl (by decide) (.flush HEARTBEAT 1 1) (by decide)
      [.onMessage ⟨0, 1, 1, [7]⟩]).2.2.2.2.2 (by decide)⟩

/-- C6 as stated fails: a call waits for HEARTBEAT from (1, 1) and the key is flushed.  The
flush finishes no call (the call is still suspended, not timed out, and nothing was thrown),
the wait of the call can only end with status `timeout`, and what the call throws then is
`TimeoutError`, not a failure of another kind. -/
theorem flush_does_not_cancel :
    (run System.init [.receive HEARTBEAT 1 1 5000, .flush HEARTBEAT 1 1]).returned.map
      (fun c => c.result) = [] ∧
    (run System.init [.receive HEARTBEAT 1 1 5000, .flush HEARTBEAT 1 1]).calls.map
      (fun f => (f.prom, f.timedOut)) = [(0, false)] ∧
    wait_for (run System.init [.receive HEARTBEAT 1 1 5000, .flush HEARTBEAT 1 1]).tester 0
      = .timeout ∧
    (run System.init [.receive HEARTBEAT 1 1 5000, .flush HEARTBEAT 1 1, .wait_for 0,
      .relock 0]).returned.map (fun c => c.result) =
      [.error (.TimeoutError "Message receive timeout for message HEARTBEAT")] := by
  decide

/-! ## C7: a timeout on a key fails the other waiters of the key -/

/-- C7: let a call `f` on key `K` have timed out and be about to run its timeout branch,
while another call `g` is suspended as a registered waiter of `K`.  The timeout branch of
`f` removes the waiter of `g` from every list.  Whatever events follow, the promise of `g`
never gets a value (no later `passthroughIntercept` resolves it), every call on this promise
that finishes afterwards threw `TimeoutError`, none returned a message, and when the wait of
`g` ends the call `g` throws `TimeoutError`. -/
theorem timeout_fails_other_waiters (trace : List Event) (f g : Frame)
    (hf : f ∈ (run System.init trace).calls) (hft : f.timedOut = true)
    (hg : g ∈ (run System.init trace).calls) (hgw : g.timedOut = false)
    (hreg : g.prom ∈ (run System.init trace).tester._promise_map f.call.hash)
    (rest : List Event) :
    (∀ h, g.prom ∉ (step (run System.init trace) (.relock f.prom)).tester._promise_map h) ∧
    g ∈ (step (run System.init trace) (.relock f.prom)).calls ∧
    (run (step (run System.init trace) (.relock f.prom)) rest).tester.promises g.prom = none ∧
    (∀ c ∈ (run (step (run System.init trace) (.relock f.prom)) rest).returned.drop
        (run System.init trace).returned.length,
      c.prom = some g.prom → ∃ what, c.result = .error (.TimeoutError what)) ∧
    ((∀ e ∈ rest, e.wakes g.prom = false) →
      wait_for (run (step (run System.init trace) (.relock f.prom)) rest).tester g.prom
        = .timeout ∧
      (run (run (step (run System.init trace) (.relock f.prom)) rest)
          [.wait_for g.prom, .relock g.prom]).returned =
        (run (step (run System.init trace) (.relock f.prom)) rest).returned ++ [⟨g.call, some g.prom,
          .error (.TimeoutError ("Message receive timeout for message " ++ g.call.MSG.NAME))⟩]) := by
  have hs := inv_reachable trace
  generalize run System.init trace = s at hs hf hg hreg
  have hne : g.prom ≠ f.prom := by
    intro e
    have := frame_unique hs.frame_nodup hg hf e
    rw [this, hft] at hgw
    cases hgw
  have e1 := step_relock hs hf hft
  have hs1 := inv_step hs (.relock f.prom)
  have hg1 : g ∈ (step s (.relock f.prom)).calls := by
    rw [e1]
    simp only [List.mem_filter]
    exact ⟨hg, by simp [hne]⟩
  have hd : Discarded g.prom s.returned.length (step s (.relock f.prom)) := by
    rw [e1]
    refine ⟨hs.frame_lt g hg, (hs.pending _ _ hreg).2, unlisted_of_clear hs hreg, ?_⟩
    intro c hc hp
    rcases mem_drop_append_cases hc with hc1 | hc1
    · simp at hc1
    · subst hc1; exact ⟨_, rfl⟩
  have hd2 := discarded_run hs1 hd rest
  have hs2 := inv_run hs1 rest
  refine ⟨hd.unlisted, hg1, hd2.pending, hd2.failed, ?_⟩
  intro hrest
  exact ⟨by simp [wait_for, hd2.pending],
    (timeout_effect hs2 (frame_run hs1 hg1 hgw rest hrest) hgw hd2.pending).2.2.2⟩

/-- An instance of C7: two calls wait for HEARTBEAT from (1, 1); the first times out and
clears the list; a HEARTBEAT from (1, 1) arrives; the wait of the second call ends. -/
theorem timeout_fails_other_waiters_witness :
    (run (step (run System.init [.receive HEARTBEAT 1 1 100, .receive HEARTBEAT 1 1 5000,
        .wait_for 0]) (.relock 0)) [.onMessage ⟨0, 1, 1, [7]⟩]).tester.promises 1 = none ∧
    (run (run (step (run System.init [.receive HEARTBEAT 1 1 100, .receive HEARTBEAT 1 1 5000,
        .wait_for 0]) (.relock 0)) [.onMessage ⟨0, 1, 1, [7]⟩])
        [.wait_for 1, .relock 1]).returned =
      (run (step (run System.init [.receive HEARTBEAT 1 1 100, .receive HEARTBEAT 1 1 5000,
        .wait_for 0]) (.relock 0)) [.onMessage ⟨0, 1, 1, [7]⟩]).returned ++
        [⟨⟨HEARTBEAT, 1, 1, 5000⟩, some 1,
          .error (.TimeoutError ("Message receive timeout for message " ++ "HEARTBEAT"))⟩] :=
  ⟨(timeout_fails_other_waiters
      [.receive HEARTBEAT 1 1 100, .receive HEARTBEAT 1 1 5000, .wait_for 0]
      ⟨⟨HEARTBEAT, 1, 1, 100⟩, 0, true⟩ ⟨⟨HEARTBEAT, 1, 1, 5000⟩, 1, false⟩
      (List.Mem.head _) rfl (List.Mem.tail _ (List.Mem.head _)) rfl (by decide)
      [.onMessage ⟨0, 1, 1, [7]⟩]).2.2.1,
    ((timeout_fails_other_waiters
      [.receive HEARTBEAT 1 1 100, .receive HEARTBEAT 1 1 5000, .wait_for 0]
      ⟨⟨HEARTBEAT, 1, 1, 100⟩, 0, true⟩ ⟨⟨HEARTBEAT, 1, 1, 5000⟩, 1, false⟩
      (List.Mem.head _) rfl (List.Mem.tail _ (List.Mem.head _)) rfl (by decide)
      [.onMessage ⟨0, 1, 1, [7]⟩]).2.2.2.2 (by decide)).2⟩

/-! ## C8: `flush` empties a channel -/

/-- C8: in every execution state, `flush<MSG>(sys, comp)` leaves the key `K` of its arguments
with an empty waiter list and an empty backlog, gives no promise a value and finishes no
call.  Whatever events follow, a `receive` call on `K` that begins after the flush (it
returns on the fast path after the flush, or waits on a promise created after it) only
returns the decoding of a message of key `K` that was given to `passthroughIntercept` after
the flush: what the backlog held before the flush is gone. -/
theorem flush_discards (trace : List Event) (MSG : msg_helper) (sys comp : Nat)
    (rest : List Event) :
    (step (run System.init trace) (.flush MSG sys comp)).tester._promise_map
      (recMessageHash MSG.ID sys comp) = [] ∧
    (step (run System.init trace) (.flush MSG sys comp)).tester._message_queue_map
      (recMessageHash MSG.ID sys comp) = [] ∧
    (step (run System.init trace) (.flush MSG sys comp)).tester.promises =
      (run System.init trace).tester.promises ∧
    (step (run System.init trace) (.flush MSG sys comp)).returned =
      (run System.init trace).returned ∧
    (step (run System.init trace) (.flush MSG sys comp)).calls =
      (run System.init trace).calls ∧
    (∀ c ∈ (run (step (run System.init trace) (.flush MSG sys comp)) rest).returned.drop
        (run System.init trace).returned.length,
      (∀ p, c.prom = some p → (run System.init trace).tester.allocated ≤ p) →
      c.call.hash = recMessageHash MSG.ID sys comp →
      ∀ d, c.result = .ok d →
        ∃ m ∈ (run (step (run System.init trace) (.flush MSG sys comp)) rest).delivered.drop
            (run System.init trace).delivered.length,
          messageHash m = recMessageHash MSG.ID sys comp ∧ d = c.call.MSG.unpack m) := by
  have hs := inv_reachable trace
  generalize run System.init trace = s at hs
  have hs1 := inv_step hs (.flush MSG sys comp)
  have hq : (step s (.flush MSG sys comp)).tester._message_queue_map
      (recMessageHash MSG.ID sys comp) = [] := by simp [step, flush]
  have h1 := since_run hs1 (since_start hs1 _ hq) rest
  exact ⟨by simp [step, flush], hq, rfl, rfl, rfl, h1.handed⟩

/-- An instance of C8: a PARAM_VALUE from (1, 1) is queued and flushed; a second one arrives
and is received. -/
theorem flush_discards_witness :
    ∃ m ∈ (run (step (run System.init [.onMessage ⟨22, 1, 1, [1]⟩]) (.flush PARAM_VALUE 1 1))
        [.onMessage ⟨22, 1, 1, [2]⟩, .receive PARAM_VALUE 1 1 100]).delivered.drop
          (run System.init [.onMessage ⟨22, 1, 1, [1]⟩]).delivered.length,
      messageHash m = recMessageHash PARAM_VALUE.ID 1 1 ∧ [2] = PARAM_VALUE.unpack m :=
  (flush_discards [.onMessage ⟨22, 1, 1, [1]⟩] PARAM_VALUE 1 1
      [.onMessage ⟨22, 1, 1, [2]⟩, .receive PARAM_VALUE 1 1 100]).2.2.2.2.2
    ⟨⟨PARAM_VALUE, 1, 1, 100⟩, none, .ok [2]⟩ (List.Mem.head _) (fun _ h => nomatch h)
    (by decide) [2] rfl

/-! ## C9: `flushAll` resets every channel and the registry stays usable -/

/-- C9: in every state, after `flushAll()` every key has an empty waiter list and an empty
backlog, as a `flush` of that key gives it, no promise got a value and no call finished;
and for a message of the key of `receive<MSG>(sys, comp, t)`, `flushAll()` followed by
`passthroughIntercept` of the message followed by that `receive` returns the decoding of the
message. -/
theorem flushAll_resets (s : System) (message : mavlink_message_t) (MSG : msg_helper)
    (sys comp t : Nat) (hK : messageHash message = recMessageHash MSG.ID sys comp) :
    (∀ h, (step s .flushAll).tester._promise_map h = [] ∧
      (step s .flushAll).tester._message_queue_map h = []) ∧
    (∀ (MSG1 : msg_helper) (sys1 comp1 : Nat),
      (step s .flushAll).tester._promise_map (recMessageHash MSG1.ID sys1 comp1) =
        (step s (.flush MSG1 sys1 comp1)).tester._promise_map
          (recMessageHash MSG1.ID sys1 comp1) ∧
      (step s .flushAll).tester._message_queue_map (recMessageHash MSG1.ID sys1 comp1) =
        (step s (.flush MSG1 sys1 comp1)).tester._message_queue_map
          (recMessageHash MSG1.ID sys1 comp1)) ∧
    (step s .flushAll).tester.promises = s.tester.promises ∧
    (step s .flushAll).returned = s.returned ∧
    (step s .flushAll).calls = s.calls ∧
    (run s [.flushAll, .onMessage message, .receive MSG sys comp t]).returned =
      s.returned ++ [⟨⟨MSG, sys, comp, t⟩, none, .ok (MSG.unpack message)⟩] ∧
    (run s [.flushAll, .onMessage message, .receive MSG sys comp t]).calls = s.calls := by
  refine ⟨fun h => ⟨rfl, rfl⟩, ?_, rfl, rfl, rfl, ?_⟩
  · intro MSG1 sys1 comp1
    simp [step, flush, flushAll]
  · have e0 : run s [.flushAll, .onMessage message, .receive MSG sys comp t] =
        step (step (step s .flushAll) (.onMessage message)) (.receive MSG sys comp t) := rfl
    rw [e0]
    have hl : (step s .flushAll).tester._promise_map (messageHash message) = [] := rfl
    have e1 : step (step s .flushAll) (.onMessage message) =
        { step s .flushAll with
          tester :=
            { (step s .flushAll).tester with
              _message_queue_map :=
                Function.update (step s .flushAll).tester._message_queue_map (messageHash message)
                  ((step s .flushAll).tester._message_queue_map (messageHash message)
                    ++ [message]) }
          delivered := (step s .flushAll).delivered ++ [message]
          raised := (step s .flushAll).raised ++ [] } := by
      simp only [step, passthroughIntercept_idle _ message hl]
      rfl
    have hq : (step (step s .flushAll) (.onMessage message)).tester._message_queue_map
        (recMessageHash MSG.ID sys comp) = message :: [] := by
      rw [e1, ← hK]
      simp [step, flushAll]
    rw [step_receive_cons _ MSG sys comp t message [] hq, e1]
    exact ⟨rfl, rfl⟩

/-- An instance of C9: with a stale PARAM_VALUE queued and a call waiting, `flushAll`, then a
new PARAM_VALUE from (1, 1) arrives and is received. -/
theorem flushAll_resets_witness :
    (run (run System.init [.onMessage ⟨22, 1, 1, [1]⟩, .receive HEARTBEAT 1 1 100])
        [.flushAll, .onMessage ⟨22, 1, 1, [2]⟩, .receive PARAM_VALUE 1 1 100]).returned =
      (run System.init [.onMessage ⟨22, 1, 1, [1]⟩, .receive HEARTBEAT 1 1 100]).returned ++
        [⟨⟨PARAM_VALUE, 1, 1, 100⟩, none, .ok (PARAM_VALUE.unpack ⟨22, 1, 1, [2]⟩)⟩] :=
  (flushAll_resets (run System.init [.onMessage ⟨22, 1, 1, [1]⟩, .receive HEARTBEAT 1 1 100])
    ⟨22, 1, 1, [2]⟩ PARAM_VALUE 1 1 100 (by decide)).2.2.2.2.2.1

/-! ## C10: operations on one key leave the other keys alone -/

theorem passthroughIntercept_other (s : PassthroughTester) (message : mavlink_message_t)
    (K1 : Nat) (hne : K1 ≠ messageHash message) :
    (passthroughIntercept s message).1._promise_map K1 = s._promise_map K1 ∧
    (passthroughIntercept s message).1._message_queue_map K1 = s._message_queue_map K1 := by
  unfold messageHash at hne
  unfold passthroughIntercept
  simp only []
  split
  · simp [Function.update_noteq hne]
  · split
    · simp [Function.update_noteq hne]
    · simp

theorem receive_locked_other (s : PassthroughTester) (MSG : msg_helper) (sys comp : Nat)
    (K1 : Nat) (hne : K1 ≠ recMessageHash MSG.ID sys comp) :
    (receive_locked s MSG sys comp).1._promise_map K1 = s._promise_map K1 ∧
    (receive_locked s MSG sys comp).1._message_queue_map K1 = s._message_queue_map K1 := by
  cases hq : s._message_queue_map (recMessageHash MSG.ID sys comp) with
  | nil => rw [receive_locked_empty s MSG sys comp hq]; simp [Function.update_noteq hne]
  | cons msg rest =>
    rw [receive_locked_cons s MSG sys comp msg rest hq]; simp [Function.update_noteq hne]

theorem receive_locked_result (s s1 : PassthroughTester) (MSG : msg_helper) (sys comp : Nat)
    (hq : s1._message_queue_map (recMessageHash MSG.ID sys comp) =
      s._message_queue_map (recMessageHash MSG.ID sys comp))
    (ha : s1.allocated = s.allocated) :
    (receive_locked s1 MSG sys comp).2 = (receive_locked s MSG sys comp).2 := by
  cases h : s._message_queue_map (recMessageHash MSG.ID sys comp) with
  | nil =>
    rw [receive_locked_empty s MSG sys comp h, receive_locked_empty s1 MSG sys comp (hq.trans h),
      ha]
  | cons msg rest =>
    rw [receive_locked_cons s MSG sys comp msg rest h,
      receive_locked_cons s1 MSG sys comp msg rest (hq.trans h)]

/-- C10: let `(MSG.ID, sys, comp)` and `(MSG1.ID, sys1, comp1)` be two different triples
within the ranges of the C types, `K` and `K1` their keys.  Then `K ≠ K1`, and none of
`passthroughIntercept` of a message with the first triple, the first critical section of
`receive` on `K` (fast path or registration), its timeout branch, and `flush` on `K` changes
the waiter list or the backlog of `K1`; the end of a wait changes no map at all; the timeout
branch and `flush` on `K` give no promise a value; and after either of them a `receive` on
`K1` starts exactly as it would have before (the same front message, or it waits). -/
theorem other_keys_untouched (s : System) (MSG MSG1 : msg_helper)
    (sys comp sys1 comp1 : Nat) (message : mavlink_message_t) (prom : Nat)
    (hid : MSG.ID < 2 ^ 32) (hsys : sys < 2 ^ 8) (hcomp : comp < 2 ^ 8)
    (hid1 : MSG1.ID < 2 ^ 32) (hsys1 : sys1 < 2 ^ 8) (hcomp1 : comp1 < 2 ^ 8)
    (hm : message.msgid = MSG.ID ∧ message.sysid = sys ∧ message.compid = comp)
    (hne : ¬ (MSG.ID = MSG1.ID ∧ sys = sys1 ∧ comp = comp1)) :
    recMessageHash MSG.ID sys comp ≠ recMessageHash MSG1.ID sys1 comp1 ∧
    ((passthroughIntercept s.tester message).1._promise_map (recMessageHash MSG1.ID sys1 comp1)
        = s.tester._promise_map (recMessageHash MSG1.ID sys1 comp1) ∧
      (passthroughIntercept s.tester message).1._message_queue_map
          (recMessageHash MSG1.ID sys1 comp1)
        = s.tester._message_queue_map (recMessageHash MSG1.ID sys1 comp1)) ∧
    ((receive_locked s.tester MSG sys comp).1._promise_map (recMessageHash MSG1.ID sys1 comp1)
        = s.tester._promise_map (recMessageHash MSG1.ID sys1 comp1) ∧
      (receive_locked s.tester MSG sys comp).1._message_queue_map
          (recMessageHash MSG1.ID sys1 comp1)
        = s.tester._message_queue_map (recMessageHash MSG1.ID sys1 comp1)) ∧
    (step s (.wait_for prom)).tester = s.tester ∧
    ((receive_timed_out s.tester MSG sys comp).1._promise_map (recMessageHash MSG1.ID sys1 comp1)
        = s.tester._promise_map (recMessageHash MSG1.ID sys1 comp1) ∧
      (receive_timed_out s.tester MSG sys comp).1._message_queue_map
        = s.tester._message_queue_map ∧
      (receive_timed_out s.tester MSG sys comp).1.promises = s.tester.promises ∧
      (receive_locked (receive_timed_out s.tester MSG sys comp).1 MSG1 sys1 comp1).2 =
        (receive_locked s.tester MSG1 sys1 comp1).2) ∧
    ((flush s.tester MSG sys comp)._promise_map (recMessageHash MSG1.ID sys1 comp1)
        = s.tester._promise_map (recMessageHash MSG1.ID sys1 comp1) ∧
      (flush s.tester MSG sys comp)._message_queue_map (recMessageHash MSG1.ID sys1 comp1)
        = s.tester._message_queue_map (recMessageHash MSG1.ID sys1 comp1) ∧
      (flush s.tester MSG sys comp).promises = s.tester.promises ∧
      (receive_locked (flush s.tester MSG sys comp) MSG1 sys1 comp1).2 =
        (receive_locked s.tester MSG1 sys1 comp1).2) := by
  have hK : recMessageHash MSG.ID sys comp ≠ recMessageHash MSG1.ID sys1 comp1 :=
    fun e => hne (recMessageHash_inj hid hsys hcomp hid1 hsys1 hcomp1 e)
  have hK1 : recMessageHash MSG1.ID sys1 comp1 ≠ messageHash message := by
    unfold messageHash
    rw [hm.1, hm.2.1, hm.2.2]
    exact Ne.symm hK
  have hfl : (flush s.tester MSG sys comp)._message_queue_map (recMessageHash MSG1.ID sys1 comp1)
      = s.tester._message_queue_map (recMessageHash MSG1.ID sys1 comp1) := by
    simp [flush, Function.update_noteq (Ne.symm hK)]
  refine ⟨hK, passthroughIntercept_other _ _ _ hK1, receive_locked_other _ _ _ _ _ (Ne.symm hK),
    ?_, ⟨?_, rfl, rfl, receive_locked_result _ _ _ _ _ rfl rfl⟩,
    ⟨?_, hfl, rfl, receive_locked_result _ _ _ _ _ hfl rfl⟩⟩
  · simp only [step]
    cases hfind : s.calls.find? (fun f => f.prom == prom && !f.timedOut) with
    | none => rfl
    | some f =>
      simp only []
      cases hw : wait_for s.tester prom with
      | timeout => rfl
      | ready =>
        simp only []
        cases hg : future_get s.tester prom with
        | none => rfl
        | some msg => rfl
  · simp [receive_timed_out, Function.update_noteq (Ne.symm hK)]
  · simp [flush, Function.update_noteq (Ne.symm hK)]

/-- An instance of C10: a HEARTBEAT is queued and a call waits for PARAM_VALUE, both from
(1, 1); flushing the PARAM_VALUE key leaves the HEARTBEAT backlog as it was. -/
theorem other_keys_untouched_witness :
    (flush (run System.init [.onMessage ⟨0, 1, 1, [7]⟩,
        .receive PARAM_VALUE 1 1 100]).tester PARAM_VALUE 1 1)._message_queue_map
      (recMessageHash HEARTBEAT.ID 1 1) =
    (run System.init [.onMessage ⟨0, 1, 1, [7]⟩,
        .receive PARAM_VALUE 1 1 100]).tester._message_queue_map
      (recMessageHash HEARTBEAT.ID 1 1) :=
  (other_keys_untouched
    (run System.init [.onMessage ⟨0, 1, 1, [7]⟩, .receive PARAM_VALUE 1 1 100])
    PARAM_VALUE HEARTBEAT 1 1 1 1 ⟨22, 1, 1, [3]⟩ 0
    (by decide) (by decide) (by decide) (by decide) (by decide) (by decide)
    (by decide) (by decide)).2.2.2.2.2.2.1

/-! ## One call of `receive` seen from its caller -/

theorem awaited_eq (s : PassthroughTester) (prom : Nat) : awaited s prom = s.promises prom := by
  unfold awaited wait_for future_get
  cases h : s.promises prom <;> simp

theorem inv_receive_locked {s : System} (hs : Inv s) (MSG : msg_helper) (sys comp : Nat) :
    Inv { s with tester := (receive_locked s.tester MSG sys comp).1 } := by
  have h1 := inv_receive hs MSG sys comp 0
  cases hq : s.tester._message_queue_map (recMessageHash MSG.ID sys comp) with
  | nil =>
    rw [step_receive_empty s MSG sys comp 0 hq] at h1
    rw [receive_locked_empty s.tester MSG sys comp hq]
    exact inv_calls h1 s.calls s.returned
      (fun g hg => ⟨g, List.mem_append_left _ hg, rfl, rfl⟩) hs.frame_nodup
  | cons msg rest =>
    rw [step_receive_cons s MSG sys comp 0 msg rest hq] at h1
    rw [receive_locked_cons s.tester MSG sys comp msg rest hq]
    exact inv_calls h1 s.calls s.returned (fun g hg => ⟨g, hg, rfl, rfl⟩) hs.frame_nodup

theorem receive_front (s : System) (MSG : msg_helper) (sys comp t : Nat) (env : Slot)
    (t1 : PassthroughTester) (msg : mavlink_message_t)
    (h : receive_locked (run s env.before).tester MSG sys comp = (t1, .front msg)) :
    receive s MSG sys comp t env =
      ({ run s env.before with tester := t1 }, .ok (MSG.unpack msg)) := by
  unfold receive
  simp only [h]

theorem receive_resolved (s : System) (MSG : msg_helper) (sys comp t : Nat) (env : Slot)
    (t1 : PassthroughTester) (prom : Nat) (msg : mavlink_message_t)
    (h : receive_locked (run s env.before).tester MSG sys comp = (t1, .waiting prom))
    (hv : (run { run s env.before with tester := t1 } env.during).tester.promises prom
      = some msg) :
    receive s MSG sys comp t env =
      (run { run s env.before with tester := t1 } env.during, .ok (MSG.unpack msg)) := by
  unfold receive
  simp only [h, awaited_eq, hv]

theorem receive_pending (s : System) (MSG : msg_helper) (sys comp t : Nat) (env : Slot)
    (t1 : PassthroughTester) (prom : Nat)
    (h : receive_locked (run s env.before).tester MSG sys comp = (t1, .waiting prom))
    (hv : (run { run s env.before with tester := t1 } env.during).tester.promises prom = none) :
    receive s MSG sys comp t env =
      ({ run (run { run s env.before with tester := t1 } env.during) env.late with
          tester := (receive_timed_out
            (run (run { run s env.before with tester := t1 } env.during) env.late).tester
            MSG sys comp).1 },
        .error (.TimeoutError ("Message receive timeout for message " ++ MSG.NAME))) := by
  unfold receive
  simp only [h, awaited_eq, hv]
  rfl

theorem onMessage_idle_tester (s : System) (message : mavlink_message_t)
    (hl : s.tester._promise_map (messageHash message) = []) :
    (step s (.onMessage message)).tester._promise_map = s.tester._promise_map ∧
    (step s (.onMessage message)).tester._message_queue_map (messageHash message) =
      s.tester._message_queue_map (messageHash message) ++ [message] := by
  simp only [step, passthroughIntercept_idle s.tester message hl]
  simp

theorem onMessage_single_waiter {s : System} (hs : Inv s) (message : mavlink_message_t)
    (p : Nat) (hl : s.tester._promise_map (messageHash message) = [p]) :
    (step s (.onMessage message)).tester.promises p = some message ∧
    (step s (.onMessage message)).tester._promise_map (messageHash message) = [] ∧
    (step s (.onMessage message)).tester._message_queue_map = s.tester._message_queue_map := by
  have e2 := passthroughIntercept_broadcast s.tester message (by rw [hl]; simp) (hs.nodup _)
    (fun p hp => (hs.pending _ p hp).2)
  simp only [step, e2, hl]
  simp

/-- A call on an idle key during which one message of the key arrives returns the decoding
of that message and leaves the key idle. -/
theorem receive_arrival {s : System} (hs : Inv s) (MSG : msg_helper) (sys comp t : Nat)
    (message : mavlink_message_t) (early : Bool)
    (hK : messageHash message = recMessageHash MSG.ID sys comp)
    (hl : s.tester._promise_map (recMessageHash MSG.ID sys comp) = [])
    (hq : s.tester._message_queue_map (recMessageHash MSG.ID sys comp) = []) :
    (receive s MSG sys comp t (Slot.arrival message early)).2 = .ok (MSG.unpack message) ∧
    Inv (receive s MSG sys comp t (Slot.arrival message early)).1 ∧
    (receive s MSG sys comp t (Slot.arrival message early)).1.tester._promise_map
      (recMessageHash MSG.ID sys comp) = [] ∧
    (receive s MSG sys comp t (Slot.arrival message early)).1.tester._message_queue_map
      (recMessageHash MSG.ID sys comp) = [] := by
  cases early with
  | true =>
    have hl1 : s.tester._promise_map (messageHash message) = [] := by rw [hK]; exact hl
    have hs0 := inv_step hs (.onMessage message)
    obtain ⟨a1, a2⟩ := onMessage_idle_tester s message hl1
    rw [hK, hq, List.nil_append] at a2
    have hs1 := inv_receive_locked hs0 MSG sys comp
    have e1 := receive_locked_cons (step s (.onMessage message)).tester MSG sys comp message []
      a2
    have er := receive_front s MSG sys comp t (Slot.arrival message true) _ message e1
    rw [e1] at hs1
    rw [er]
    refine ⟨rfl, hs1, ?_, ?_⟩
    · exact (congrFun a1 _).trans hl
    · simp
  | false =>
    have hs1 := inv_receive_locked hs MSG sys comp
    have e1 := receive_locked_empty s.tester MSG sys comp hq
    rw [e1] at hs1
    have hl1 : ({ s with
        tester :=
          { s.tester with
            allocated := s.tester.allocated + 1
            promises := Function.update s.tester.promises s.tester.allocated none
            _promise_map :=
              Function.update s.tester._promise_map (recMessageHash MSG.ID sys comp)
                (s.tester._promise_map (recMessageHash MSG.ID sys comp) ++
                  [s.tester.allocated]) } } : System).tester._promise_map
        (messageHash message) = [s.tester.allocated] := by
      rw [hK]; simp [hl]
    obtain ⟨b1, b2, b3⟩ := onMessage_single_waiter hs1 message _ hl1
    have hs2 := inv_step hs1 (.onMessage message)
    have er := receive_resolved s MSG sys comp t (Slot.arrival message false) _
        s.tester.allocated message e1 b1
    rw [er]
    refine ⟨rfl, hs2, ?_, ?_⟩
    · rw [hK] at b2; exact b2
    · exact (congrFun b3 _).trans hq

/-- A call on a key with empty backlog while no other thread does anything: it registers a
promise, times out, clears the waiter list of the key and throws `TimeoutError`. -/
theorem receive_quiet (s : System) (MSG : msg_helper) (sys comp t : Nat)
    (hq : s.tester._message_queue_map (recMessageHash MSG.ID sys comp) = []) :
    receive s MSG sys comp t Slot.quiet =
      ({ s with
          tester :=
            { s.tester with
              allocated := s.tester.allocated + 1
              promises := Function.update s.tester.promises s.tester.allocated none
              _promise_map :=
                Function.update s.tester._promise_map (recMessageHash MSG.ID sys comp) [] } },
        .error (.TimeoutError ("Message receive timeout for message " ++ MSG.NAME))) := by
  rw [receive_pending s MSG sys comp t Slot.quiet _ s.tester.allocated
    (receive_locked_empty s.tester MSG sys comp hq) (by simp [Slot.quiet, run])]
  simp [Slot.quiet, run, receive_timed_out]
/-! ## The loop of `expectCondition` -/

theorem loop_exit (MSG : msg_helper) (sys comp : Nat) (observe_n timeout : Int)
    (condition : List Nat → Bool) (i : Int) (s : System) (sched : List Slot)
    (h : ¬ i < observe_n) :
    expectCondition_loop MSG sys comp observe_n timeout condition i s sched =
      ⟨s, [], .ok false⟩ := by
  rw [expectCondition_loop]
  simp [h]

theorem loop_error (MSG : msg_helper) (sys comp : Nat) (observe_n timeout : Int)
    (condition : List Nat → Bool) (i : Int) (s : System) (sched : List Slot)
    (h : i < observe_n) (s1 : System) (e : Exception)
    (hr : receive s MSG sys comp (uint32_t timeout) (sched.headD Slot.quiet) = (s1, .error e)) :
    expectCondition_loop MSG sys comp observe_n timeout condition i s sched =
      ⟨s1, [.error e], .error e⟩ := by
  rw [expectCondition_loop, if_pos h, hr]

theorem loop_true (MSG : msg_helper) (sys comp : Nat) (observe_n timeout : Int)
    (condition : List Nat → Bool) (i : Int) (s : System) (sched : List Slot)
    (h : i < observe_n) (s1 : System) (curr : List Nat)
    (hr : receive s MSG sys comp (uint32_t timeout) (sched.headD Slot.quiet) = (s1, .ok curr))
    (hc : condition curr = true) :
    expectCondition_loop MSG sys comp observe_n timeout condition i s sched =
      ⟨s1, [.ok curr], .ok true⟩ := by
  rw [expectCondition_loop, if_pos h, hr]
  simp only [hc, if_true]

theorem loop_last (MSG : msg_helper) (sys comp : Nat) (observe_n timeout : Int)
    (condition : List Nat → Bool) (i : Int) (s : System) (sched : List Slot)
    (h : i < observe_n) (s1 : System) (curr : List Nat)
    (hr : receive s MSG sys comp (uint32_t timeout) (sched.headD Slot.quiet) = (s1, .ok curr))
    (hc : condition curr = false) (hi : i = observe_n - 1) :
    expectCondition_loop MSG sys comp observe_n timeout condition i s sched =
      ⟨s1, [.ok curr], .ok false⟩ := by
  rw [expectCondition_loop, if_pos h, hr]
  simp only [hc, Bool.false_eq_true, if_false, hi, if_true]

theorem loop_next (MSG : msg_helper) (sys comp : Nat) (observe_n timeout : Int)
    (condition : List Nat → Bool) (i : Int) (s : System) (sched : List Slot)
    (h : i < observe_n) (s1 : System) (curr : List Nat)
    (hr : receive s MSG sys comp (uint32_t timeout) (sched.headD Slot.quiet) = (s1, .ok curr))
    (hc : condition curr = false) (hi : i ≠ observe_n - 1) :
    expectCondition_loop MSG sys comp observe_n timeout condition i s sched =
      { expectCondition_loop MSG sys comp observe_n timeout condition (i + 1) s1 sched.tail with
        observations := .ok curr ::
          (expectCondition_loop MSG sys comp observe_n timeout condition (i + 1) s1
            sched.tail).observations } := by
  rw [expectCondition_loop, if_pos h, hr]
  simp only [hc, Bool.false_eq_true, if_false, hi]

theorem receive_arrival_eq {s : System} (hs : Inv s) (MSG : msg_helper) (sys comp t : Nat)
    (message : mavlink_message_t) (early : Bool)
    (hK : messageHash message = recMessageHash MSG.ID sys comp)
    (hl : s.tester._promise_map (recMessageHash MSG.ID sys comp) = [])
    (hq : s.tester._message_queue_map (recMessageHash MSG.ID sys comp) = []) :
    receive s MSG sys comp t (Slot.arrival message early) =
      ((receive s MSG sys comp t (Slot.arrival message early)).1, .ok (MSG.unpack message)) := by
  have h := (receive_arrival hs MSG sys comp t message early hK hl hq).1
  exact Prod.ext rfl h

/-- The loop runs through arrivals of the key that fail the condition, as long as the
counter stays below `observe_n - 1`, one observation per arrival, and the key is idle at
each turn. -/
theorem loop_skip (MSG : msg_helper) (sys comp : Nat) (observe_n timeout : Int)
    (condition : List Nat → Bool) (pre : List (mavlink_message_t × Bool)) :
    ∀ (i : Int) (s : System) (rest : List Slot), Inv s →
      s.tester._promise_map (recMessageHash MSG.ID sys comp) = [] →
      s.tester._message_queue_map (recMessageHash MSG.ID sys comp) = [] →
      (∀ a ∈ pre, messageHash a.1 = recMessageHash MSG.ID sys comp ∧
        condition (MSG.unpack a.1) = false) →
      i + pre.length < observe_n →
      ∃ s1, Inv s1 ∧ s1.tester._promise_map (recMessageHash MSG.ID sys comp) = [] ∧
        s1.tester._message_queue_map (recMessageHash MSG.ID sys comp) = [] ∧
        expectCondition_loop MSG sys comp observe_n timeout condition i s
            (pre.map (fun a => Slot.arrival a.1 a.2) ++ rest) =
          { expectCondition_loop MSG sys comp observe_n timeout condition (i + pre.length) s1
              rest with
            observations := pre.map (fun a => .ok (MSG.unpack a.1)) ++
              (expectCondition_loop MSG sys comp observe_n timeout condition (i + pre.length)
                s1 rest).observations } := by
  induction pre with
  | nil =>
    intro i s rest hs hl hq _ _
    exact ⟨s, hs, hl, hq, by simp⟩
  | cons a pre ih =>
    intro i s rest hs hl hq hpre hlt
    have ha := hpre a (List.mem_cons_self _ _)
    have hlen : ((a :: pre).length : Int) = pre.length + 1 := by simp
    obtain ⟨_, r2, r3, r4⟩ :=
      receive_arrival hs MSG sys comp (uint32_t timeout) a.1 a.2 ha.1 hl hq
    have hr := receive_arrival_eq hs MSG sys comp (uint32_t timeout) a.1 a.2 ha.1 hl hq
    obtain ⟨s1, b1, b2, b3, b4⟩ := ih (i + 1) _ rest r2 r3 r4
      (fun x hx => hpre x (List.mem_cons_of_mem _ hx)) (by omega)
    refine ⟨s1, b1, b2, b3, ?_⟩
    have hstep := loop_next MSG sys comp observe_n timeout condition i s
      ((a :: pre).map (fun a => Slot.arrival a.1 a.2) ++ rest) (by omega) _ _ hr ha.2 (by omega)
    rw [hstep]
    simp only [List.map_cons, List.cons_append, List.tail_cons]
    rw [b4]
    have e : i + 1 + (pre.length : Int) = i + ((a :: pre).length : Int) := by omega
    rw [e]

/-! ## C11: `expectCondition` stops at the first message that satisfies the condition -/

/-- C11: in every execution state, with messages of the key of the call arriving one per
observation (each before the `receive` takes the lock or during its wait) after the initial
flush.  (1) If the arrivals `pre` fail the condition, fewer than `observe_n` of them, and the
next arrival satisfies it, `expectCondition` returns true and has made exactly the
observations of `pre` and of that arrival: what the later slots hold is not received.
(2) If `observe_n >= 1` arrivals came, `pre`, and all fail the condition, `expectCondition`
returns false after exactly these observations. -/
theorem expectCondition_first_match (trace : List Event) (MSG : msg_helper) (sys comp : Nat)
    (observe_n timeout : Int) (condition : List Nat → Bool)
    (pre : List (mavlink_message_t × Bool)) (rest : List Slot)
    (hpre : ∀ a ∈ pre, messageHash a.1 = recMessageHash MSG.ID sys comp ∧
      condition (MSG.unpack a.1) = false) :
    (∀ a : mavlink_message_t × Bool, messageHash a.1 = recMessageHash MSG.ID sys comp →
      condition (MSG.unpack a.1) = true → (pre.length : Int) < observe_n →
      (expectCondition (run System.init trace) MSG sys comp observe_n timeout condition
          (pre.map (fun a => Slot.arrival a.1 a.2) ++ Slot.arrival a.1 a.2 :: rest)).result
        = .ok true ∧
      (expectCondition (run System.init trace) MSG sys comp observe_n timeout condition
          (pre.map (fun a => Slot.arrival a.1 a.2) ++ Slot.arrival a.1 a.2 :: rest)).observations
        = (pre ++ [a]).map (fun a => .ok (MSG.unpack a.1))) ∧
    (1 ≤ observe_n → (pre.length : Int) = observe_n →
      (expectCondition (run System.init trace) MSG sys comp observe_n timeout condition
          (pre.map (fun a => Slot.arrival a.1 a.2) ++ rest)).result = .ok false ∧
      (expectCondition (run System.init trace) MSG sys comp observe_n timeout condition
          (pre.map (fun a => Slot.arrival a.1 a.2) ++ rest)).observations
        = pre.map (fun a => .ok (MSG.unpack a.1))) := by
  have hs := inv_step (inv_reachable trace) (.flush MSG sys comp)
  have hl : (step (run System.init trace) (.flush MSG sys comp)).tester._promise_map
      (recMessageHash MSG.ID sys comp) = [] := by simp [step, flush]
  have hq : (step (run System.init trace) (.flush MSG sys comp)).tester._message_queue_map
      (recMessageHash MSG.ID sys comp) = [] := by simp [step, flush]
  have hexp : ∀ sched, expectCondition (run System.init trace) MSG sys comp observe_n timeout
      condition sched = expectCondition_loop MSG sys comp observe_n timeout condition 0
        (step (run System.init trace) (.flush MSG sys comp)) sched := fun _ => rfl
  generalize step (run System.init trace) (.flush MSG sys comp) = s0 at hs hl hq hexp
  constructor
  · intro a ha hc hlt
    obtain ⟨s1, b1, b2, b3, b4⟩ := loop_skip MSG sys comp observe_n timeout condition pre 0 s0
      (Slot.arrival a.1 a.2 :: rest) hs hl hq hpre (by omega)
    have hr := receive_arrival_eq b1 MSG sys comp (uint32_t timeout) a.1 a.2 ha b2 b3
    have hstep := loop_true MSG sys comp observe_n timeout condition (0 + pre.length) s1
      (Slot.arrival a.1 a.2 :: rest) (by omega) _ _ hr hc
    rw [hexp, b4, hstep]
    simp
  · intro hn hlen
    rcases List.eq_nil_or_concat pre with hnil | ⟨init, last, hcat⟩
    · subst hnil; simp at hlen; omega
    · rw [List.concat_eq_append] at hcat
      subst hcat
      have hlast := hpre last (by simp)
      have hlen1 : (init.length : Int) + 1 = observe_n := by
        rw [← hlen]; simp
      obtain ⟨s1, b1, b2, b3, b4⟩ := loop_skip MSG sys comp observe_n timeout condition init 0
        s0 (Slot.arrival last.1 last.2 :: rest) hs hl hq
        (fun x hx => hpre x (List.mem_append_left _ hx)) (by omega)
      have hr := receive_arrival_eq b1 MSG sys comp (uint32_t timeout) last.1 last.2 hlast.1
        b2 b3
      have hstep := loop_last MSG sys comp observe_n timeout condition (0 + init.length) s1
        (Slot.arrival last.1 last.2 :: rest) (by omega) _ _ hr hlast.2 (by omega)
      have hsched : (init ++ [last]).map (fun a => Slot.arrival a.1 a.2) ++ rest =
          init.map (fun a => Slot.arrival a.1 a.2) ++ Slot.arrival last.1 last.2 :: rest := by
        simp
      rw [hexp, hsched, b4, hstep]
      simp

/-- An instance of C11 with `observe_n = 3`: a PARAM_VALUE failing the condition arrives,
then one satisfying it, and a third one would arrive in the third slot; and three arrivals
that all fail the condition. -/
theorem expectCondition_first_match_witness :
    ((expectCondition (run System.init []) PARAM_VALUE 1 1 3 50 (fun d => d == [5])
        ([((⟨22, 1, 1, [1]⟩ : mavlink_message_t), true)].map (fun a => Slot.arrival a.1 a.2) ++
          Slot.arrival ⟨22, 1, 1, [5]⟩ false :: [Slot.arrival ⟨22, 1, 1, [5]⟩ false])).result
      = .ok true ∧
    (expectCondition (run System.init []) PARAM_VALUE 1 1 3 50 (fun d => d == [5])
        ([((⟨22, 1, 1, [1]⟩ : mavlink_message_t), true)].map (fun a => Slot.arrival a.1 a.2) ++
          Slot.arrival ⟨22, 1, 1, [5]⟩ false :: [Slot.arrival ⟨22, 1, 1, [5]⟩ false])).observations
      = ([((⟨22, 1, 1, [1]⟩ : mavlink_message_t), true)] ++
          [((⟨22, 1, 1, [5]⟩ : mavlink_message_t), false)]).map
            (fun a => .ok (PARAM_VALUE.unpack a.1))) ∧
    ((expectCondition (run System.init []) PARAM_VALUE 1 1 3 50 (fun d => d == [5])
        ([((⟨22, 1, 1, [1]⟩ : mavlink_message_t), true), (⟨22, 1, 1, [2]⟩, false),
          (⟨22, 1, 1, [3]⟩, false)].map (fun a => Slot.arrival a.1 a.2) ++ [])).result
      = .ok false ∧
    (expectCondition (run System.init []) PARAM_VALUE 1 1 3 50 (fun d => d == [5])
        ([((⟨22, 1, 1, [1]⟩ : mavlink_message_t), true), (⟨22, 1, 1, [2]⟩, false),
          (⟨22, 1, 1, [3]⟩, false)].map (fun a => Slot.arrival a.1 a.2) ++ [])).observations
      = [((⟨22, 1, 1, [1]⟩ : mavlink_message_t), true), (⟨22, 1, 1, [2]⟩, false),
          (⟨22, 1, 1, [3]⟩, false)].map (fun a => .ok (PARAM_VALUE.unpack a.1))) :=
  ⟨(expectCondition_first_match [] PARAM_VALUE 1 1 3 50 (fun d => d == [5])
      [(⟨22, 1, 1, [1]⟩, true)] [Slot.arrival ⟨22, 1, 1, [5]⟩ false] (by decide)).1
      (⟨22, 1, 1, [5]⟩, false) (by decide) (by decide) (by decide),
    (expectCondition_first_match [] PARAM_VALUE 1 1 3 50 (fun d => d == [5])
      [(⟨22, 1, 1, [1]⟩, true), (⟨22, 1, 1, [2]⟩, false), (⟨22, 1, 1, [3]⟩, false)] []
      (by decide)).2 (by decide) (by decide)⟩

/-! ## C12: a silent observation slot throws, it does not count as false -/

theorem run_other_arrivals (K : Nat) (evs : List Event) :
    ∀ s : System, Inv s → (∀ e ∈ evs, e.otherArrival K = true) →
      Inv (run s evs) ∧
      (run s evs).tester._promise_map K = s.tester._promise_map K ∧
      (run s evs).tester._message_queue_map K = s.tester._message_queue_map K := by
  induction evs with
  | nil => intro s hs _; exact ⟨hs, rfl, rfl⟩
  | cons e evs ih =>
    intro s hs hall
    have he := hall e (List.mem_cons_self _ _)
    obtain ⟨a1, a2, a3⟩ := ih (step s e) (inv_step hs e)
      (fun x hx => hall x (List.mem_cons_of_mem _ hx))
    refine ⟨a1, ?_, ?_⟩
    · refine a2.trans ?_
      cases e with
      | onMessage m =>
        have hne : K ≠ messageHash m := by
          simp only [Event.otherArrival, bne_iff_ne, ne_eq] at he
          exact fun h => he h.symm
        exact (passthroughIntercept_other s.tester m K hne).1
      | receive MSG sys comp t => simp [Event.otherArrival] at he
      | wait_for q => simp [Event.otherArrival] at he
      | relock q => simp [Event.otherArrival] at he
      | flush MSG sys comp => simp [Event.otherArrival] at he
      | flushAll => simp [Event.otherArrival] at he
    · refine a3.trans ?_
      cases e with
      | onMessage m =>
        have hne : K ≠ messageHash m := by
          simp only [Event.otherArrival, bne_iff_ne, ne_eq] at he
          exact fun h => he h.symm
        exact (passthroughIntercept_other s.tester m K hne).2
      | receive MSG sys comp t => simp [Event.otherArrival] at he
      | wait_for q => simp [Event.otherArrival] at he
      | relock q => simp [Event.otherArrival] at he
      | flush MSG sys comp => simp [Event.otherArrival] at he
      | flushAll => simp [Event.otherArrival] at he

/-- A call on an idle key while the other threads only deliver messages of other keys: it
throws `TimeoutError` with the name of its message. -/
theorem receive_silent {s : System} (hs : Inv s) (MSG : msg_helper) (sys comp t : Nat)
    (env : Slot) (hsil : env.silentOn (recMessageHash MSG.ID sys comp) = true)
    (hl : s.tester._promise_map (recMessageHash MSG.ID sys comp) = [])
    (hq : s.tester._message_queue_map (recMessageHash MSG.ID sys comp) = []) :
    receive s MSG sys comp t env =
      ((receive s MSG sys comp t env).1,
        .error (.TimeoutError ("Message receive timeout for message " ++ MSG.NAME))) := by
  simp only [Slot.silentOn, List.all_eq_true, List.mem_append] at hsil
  obtain ⟨a1, a2, a3⟩ := run_other_arrivals _ env.before s hs
    (fun e he => hsil e (Or.inl (Or.inl he)))
  rw [hq] at a3
  rw [hl] at a2
  have e1 := receive_locked_empty (run s env.before).tester MSG sys comp a3
  have e2 : receive_locked (run s env.before).tester MSG sys comp =
      ((receive_locked (run s env.before).tester MSG sys comp).1,
        .waiting (run s env.before).tester.allocated) := by
    rw [e1]
  have hl1 : (receive_locked (run s env.before).tester MSG sys comp).1._promise_map
      (recMessageHash MSG.ID sys comp) = [(run s env.before).tester.allocated] := by
    rw [e1]; simp [a2]
  have hs1 := inv_receive_locked a1 MSG sys comp
  obtain ⟨b1, b2, _⟩ := run_other_arrivals (recMessageHash MSG.ID sys comp) env.during _ hs1
    (fun e he => hsil e (Or.inl (Or.inr he)))
  have hmem : (run s env.before).tester.allocated ∈
      (run { run s env.before with
          tester := (receive_locked (run s env.before).tester MSG sys comp).1 }
        env.during).tester._promise_map (recMessageHash MSG.ID sys comp) := by
    rw [b2, hl1]; simp
  have hv := (b1.pending _ _ hmem).2
  rw [receive_pending s MSG sys comp t env _ _ e2 hv]

/-- C12: in every execution state, let fewer than `observe_n` messages of the key arrive, one
per observation, all failing the condition, and let the next observation pass without a
message of the key (the other threads at most deliver messages of other keys).  Then
`expectCondition` throws `TimeoutError` (with the name of the message), which is not the
result false; it has made the observations of the arrivals and the one that timed out. -/
theorem expectCondition_timeout_propagates (trace : List Event) (MSG : msg_helper)
    (sys comp : Nat) (observe_n timeout : Int) (condition : List Nat → Bool)
    (pre : List (mavlink_message_t × Bool)) (rest : List Slot)
    (hpre : ∀ a ∈ pre, messageHash a.1 = recMessageHash MSG.ID sys comp ∧
      condition (MSG.unpack a.1) = false)
    (hlt : (pre.length : Int) < observe_n)
    (hquiet : (rest.headD Slot.quiet).silentOn (recMessageHash MSG.ID sys comp) = true) :
    (expectCondition (run System.init trace) MSG sys comp observe_n timeout condition
        (pre.map (fun a => Slot.arrival a.1 a.2) ++ rest)).result =
      .error (.TimeoutError ("Message receive timeout for message " ++ MSG.NAME)) ∧
    (expectCondition (run System.init trace) MSG sys comp observe_n timeout condition
        (pre.map (fun a => Slot.arrival a.1 a.2) ++ rest)).result ≠ .ok false ∧
    (expectCondition (run System.init trace) MSG sys comp observe_n timeout condition
        (pre.map (fun a => Slot.arrival a.1 a.2) ++ rest)).observations =
      pre.map (fun a => .ok (MSG.unpack a.1)) ++
        [.error (.TimeoutError ("Message receive timeout for message " ++ MSG.NAME))] := by
  have hs := inv_step (inv_reachable trace) (.flush MSG sys comp)
  have hl : (step (run System.init trace) (.flush MSG sys comp)).tester._promise_map
      (recMessageHash MSG.ID sys comp) = [] := by simp [step, flush]
  have hq : (step (run System.init trace) (.flush MSG sys comp)).tester._message_queue_map
      (recMessageHash MSG.ID sys comp) = [] := by simp [step, flush]
  have hexp : ∀ sched, expectCondition (run System.init trace) MSG sys comp observe_n timeout
      condition sched = expectCondition_loop MSG sys comp observe_n timeout condition 0
        (step (run System.init trace) (.flush MSG sys comp)) sched := fun _ => rfl
  generalize step (run System.init trace) (.flush MSG sys comp) = s0 at hs hl hq hexp
  obtain ⟨s1, b1, b2, b3, b4⟩ := loop_skip MSG sys comp observe_n timeout condition pre 0 s0
    rest hs hl hq hpre (by omega)
  have hr := receive_silent b1 MSG sys comp (uint32_t timeout) _ hquiet b2 b3
  have hstep := loop_error MSG sys comp observe_n timeout condition (0 + pre.length) s1
    rest (by omega) _ _ hr
  rw [hexp, b4, hstep]
  simp

/-- An instance of C12: `observe_n = 3`, one PARAM_VALUE from (1, 1) failing the condition
arrives; during the second observation only a HEARTBEAT from (1, 1) arrives. -/
theorem expectCondition_timeout_propagates_witness :
    (expectCondition (run System.init []) PARAM_VALUE 1 1 3 50 (fun d => d == [5])
        ([((⟨22, 1, 1, [1]⟩ : mavlink_message_t), true)].map (fun a => Slot.arrival a.1 a.2)
          ++ [Slot.arrival ⟨0, 1, 1, [5]⟩ false])).result =
      .error (.TimeoutError ("Message receive timeout for message " ++ PARAM_VALUE.NAME)) :=
  (expectCondition_timeout_propagates [] PARAM_VALUE 1 1 3 50 (fun d => d == [5])
    [(⟨22, 1, 1, [1]⟩, true)] [Slot.arrival ⟨0, 1, 1, [5]⟩ false] (by decide) (by decide)
    (by decide)).1

/-! ## C13: `expectCondition` starts from a flushed channel -/

theorem expectCondition_single_fail {s : System} {MSG : msg_helper} {sys comp : Nat}
    (hs : Inv (step s (.flush MSG sys comp))) (timeout : Int) (condition : List Nat → Bool)
    (a : mavlink_message_t × Bool) (hK : messageHash a.1 = recMessageHash MSG.ID sys comp)
    (hc : condition (MSG.unpack a.1) = false) :
    (expectCondition s MSG sys comp 1 timeout condition [Slot.arrival a.1 a.2]).result
      = .ok false := by
  have hl : (step s (.flush MSG sys comp)).tester._promise_map
      (recMessageHash MSG.ID sys comp) = [] := by simp [step, flush]
  have hq : (step s (.flush MSG sys comp)).tester._message_queue_map
      (recMessageHash MSG.ID sys comp) = [] := by simp [step, flush]
  have hr := receive_arrival_eq hs MSG sys comp (uint32_t timeout) a.1 a.2 hK hl hq
  have hstep := loop_last MSG sys comp 1 timeout condition 0 (step s (.flush MSG sys comp))
    [Slot.arrival a.1 a.2] (by omega) _ _ hr hc (by omega)
  have hexp : expectCondition s MSG sys comp 1 timeout condition [Slot.arrival a.1 a.2] =
      expectCondition_loop MSG sys comp 1 timeout condition 0 (step s (.flush MSG sys comp))
        [Slot.arrival a.1 a.2] := rfl
  rw [hexp, hstep]

/-- C13: whatever the backlog `q` and the waiter list `l` of the key `K` of the call are when
`expectCondition` is called, the call ends as it does from the state in which both are empty,
the other threads doing the same afterwards: same result, same observations (so no message
of the old backlog is passed to the condition), same final state. -/
theorem expectCondition_ignores_stale (s : System) (MSG : msg_helper) (sys comp : Nat)
    (observe_n timeout : Int) (condition : List Nat → Bool) (sched : List Slot)
    (l : List Nat) (q : List mavlink_message_t) :
    expectCondition
        { s with
          tester :=
            { s.tester with
              _promise_map :=
                Function.update s.tester._promise_map (recMessageHash MSG.ID sys comp) l
              _message_queue_map :=
                Function.update s.tester._message_queue_map (recMessageHash MSG.ID sys comp) q } }
        MSG sys comp observe_n timeout condition sched =
      expectCondition
        { s with
          tester :=
            { s.tester with
              _promise_map :=
                Function.update s.tester._promise_map (recMessageHash MSG.ID sys comp) []
              _message_queue_map :=
                Function.update s.tester._message_queue_map (recMessageHash MSG.ID sys comp) [] } }
        MSG sys comp observe_n timeout condition sched := by
  unfold expectCondition flush
  simp only [Function.update_idem]

/-- An instance of C13: the backlog holds a PARAM_VALUE that satisfies the condition; with
`observe_n = 1` and one arrival that fails it, the result is false. -/
theorem expectCondition_ignores_stale_witness :
    (expectCondition
        { System.init with
          tester :=
            { System.init.tester with
              _promise_map :=
                Function.update System.init.tester._promise_map
                  (recMessageHash PARAM_VALUE.ID 1 1) []
              _message_queue_map :=
                Function.update System.init.tester._message_queue_map
                  (recMessageHash PARAM_VALUE.ID 1 1) [⟨22, 1, 1, [5]⟩] } }
        PARAM_VALUE 1 1 1 50 (fun d => d == [5]) [Slot.arrival ⟨22, 1, 1, [1]⟩ true]).result
      = .ok false :=
  (congrArg Poll.result (expectCondition_ignores_stale System.init PARAM_VALUE 1 1 1 50
    (fun d => d == [5]) [Slot.arrival ⟨22, 1, 1, [1]⟩ true] [] [⟨22, 1, 1, [5]⟩])).trans
    (expectCondition_single_fail
      (inv_step (inv_step inv_init (.flush PARAM_VALUE 1 1)) (.flush PARAM_VALUE 1 1)) 50
      (fun d => d == [5]) (⟨22, 1, 1, [1]⟩, true) (by decide) (by decide))

/-! ## C18: a non-positive `observe_n` -/

/-- C18: for `observe_n <= 0`, `expectCondition` returns false, makes no `receive` call and
so applies the condition to nothing and throws nothing; the state it leaves is the one
`flush` of its key gives (waiter list and backlog of the key empty). -/
theorem expectCondition_nonpositive (s : System) (MSG : msg_helper) (sys comp : Nat)
    (observe_n timeout : Int) (condition : List Nat → Bool) (sched : List Slot)
    (hn : observe_n ≤ 0) :
    (expectCondition s MSG sys comp observe_n timeout condition sched).result = .ok false ∧
    (expectCondition s MSG sys comp observe_n timeout condition sched).observations = [] ∧
    (expectCondition s MSG sys comp observe_n timeout condition sched).state =
      { s with tester := flush s.tester MSG sys comp } ∧
    (expectCondition s MSG sys comp observe_n timeout condition sched).state.tester._promise_map
      (recMessageHash MSG.ID sys comp) = [] ∧
    (expectCondition s MSG sys comp observe_n timeout condition
      sched).state.tester._message_queue_map (recMessageHash MSG.ID sys comp) = [] := by
  have e : expectCondition s MSG sys comp observe_n timeout condition sched =
      ⟨{ s with tester := flush s.tester MSG sys comp }, [], .ok false⟩ := by
    unfold expectCondition
    exact loop_exit MSG sys comp observe_n timeout condition 0 _ sched (by omega)
  rw [e]
  simp [flush]

/-- An instance of C18: `observe_n = -2`, a stale PARAM_VALUE in the backlog and an arrival
that would satisfy the condition. -/
theorem expectCondition_nonpositive_witness :
    (expectCondition (run System.init [.onMessage ⟨22, 1, 1, [5]⟩]) PARAM_VALUE 1 1 (-2) 50
        (fun d => d == [5]) [Slot.arrival ⟨22, 1, 1, [5]⟩ true]).result = .ok false ∧
    (expectCondition (run System.init [.onMessage ⟨22, 1, 1, [5]⟩]) PARAM_VALUE 1 1 (-2) 50
        (fun d => d == [5]) [Slot.arrival ⟨22, 1, 1, [5]⟩ true]).observations = [] :=
  ⟨(expectCondition_nonpositive (run System.init [.onMessage ⟨22, 1, 1, [5]⟩]) PARAM_VALUE 1 1
      (-2) 50 (fun d => d == [5]) [Slot.arrival ⟨22, 1, 1, [5]⟩ true] (by decide)).1,
    (expectCondition_nonpositive (run System.init [.onMessage ⟨22, 1, 1, [5]⟩]) PARAM_VALUE 1 1
      (-2) 50 (fun d => d == [5]) [Slot.arrival ⟨22, 1, 1, [5]⟩ true] (by decide)).2.1⟩

/-! ## C14: a promise gets a value at most once -/

theorem fresh_init : Fresh System.init := by
  intro p _
  rfl

theorem promises_step {s : System} (hs : Inv s) (hf : Fresh s) (e : Event) :
    Fresh (step s e) ∧
    ∀ p m, s.tester.promises p = some m → (step s e).tester.promises p = some m := by
  cases e with
  | onMessage message =>
    by_cases hl : s.tester._promise_map (messageHash message) = []
    · simp only [step, passthroughIntercept_idle s.tester message hl]
      exact ⟨hf, fun _ _ h => h⟩
    · simp only [step, passthroughIntercept_broadcast s.tester message hl (hs.nodup _)
        (fun p hp => (hs.pending _ p hp).2)]
      constructor
      · intro p hp
        have hnot : p ∉ s.tester._promise_map (messageHash message) :=
          fun hin => absurd (hs.pending _ p hin).1 (Nat.not_lt.2 hp)
        simp only [hnot, if_false]
        exact hf p hp
      · intro p m hv
        have hnot : p ∉ s.tester._promise_map (messageHash message) := by
          intro hin
          have := (hs.pending _ p hin).2
          rw [hv] at this
          cases this
        simp only [hnot, if_false]
        exact hv
  | receive MSG sys comp t =>
    cases hq : s.tester._message_queue_map (recMessageHash MSG.ID sys comp) with
    | cons msg rest =>
      rw [step_receive_cons s MSG sys comp t msg rest hq]
      exact ⟨hf, fun _ _ h => h⟩
    | nil =>
      rw [step_receive_empty s MSG sys comp t hq]
      constructor
      · intro p hp
        have hp1 : s.tester.allocated + 1 ≤ p := hp
        have hne : p ≠ s.tester.allocated := by omega
        simp only [Function.update_noteq hne]
        exact hf p (by omega)
      · intro p m hv
        have hne : p ≠ s.tester.allocated := by
          intro e
          have := hf p (by omega)
          rw [hv] at this
          cases this
        simp only [Function.update_noteq hne]
        exact hv
  | wait_for q =>
    simp only [step]
    cases hfind : s.calls.find? (fun g => g.prom == q && !g.timedOut) with
    | none => exact ⟨hf, fun _ _ h => h⟩
    | some g =>
      simp only []
      cases hwf : wait_for s.tester q with
      | timeout => exact ⟨hf, fun _ _ h => h⟩
      | ready =>
        simp only []
        cases hg : future_get s.tester q with
        | none => exact ⟨hf, fun _ _ h => h⟩
        | some msg => exact ⟨hf, fun _ _ h => h⟩
  | relock q =>
    simp only [step]
    cases hfind : s.calls.find? (fun g => g.prom == q && g.timedOut) with
    | none => exact ⟨hf, fun _ _ h => h⟩
    | some g => exact ⟨hf, fun _ _ h => h⟩
  | flush MSG sys comp => exact ⟨hf, fun _ _ h => h⟩
  | flushAll => exact ⟨hf, fun _ _ h => h⟩

theorem promises_run {s : System} (hs : Inv s) (hf : Fresh s) (rest : List Event) :
    Fresh (run s rest) ∧
    ∀ p m, s.tester.promises p = some m → (run s rest).tester.promises p = some m := by
  induction rest generalizing s with
  | nil => exact ⟨hf, fun _ _ h => h⟩
  | cons e rest ih =>
    obtain ⟨a1, a2⟩ := promises_step hs hf e
    obtain ⟨b1, b2⟩ := ih (inv_step hs e) a1
    exact ⟨b1, fun p m h => b2 p m (a2 p m h)⟩

/-- C14: in every execution, every promise held in a waiter list holds no value yet and the
promises of a list are distinct, so each `set_value` of `passthroughIntercept` succeeds:
`passthroughIntercept` throws for no message, and nothing was ever thrown to the transport.
A value a promise has got is never replaced, whatever events follow. -/
theorem waiters_resolved_once (trace rest : List Event) :
    (∀ h, ∀ p ∈ (run System.init trace).tester._promise_map h,
      (run System.init trace).tester.promises p = none) ∧
    (∀ h, ((run System.init trace).tester._promise_map h).Nodup) ∧
    (∀ message, (passthroughIntercept (run System.init trace).tester message).2 = none) ∧
    (∀ message h,
      (resolveAll (run System.init trace).tester.promises message
        ((run System.init trace).tester._promise_map h)).2 = none) ∧
    (run System.init trace).raised = [] ∧
    (∀ p m, (run System.init trace).tester.promises p = some m →
      (run (run System.init trace) rest).tester.promises p = some m) := by
  have hs := inv_reachable trace
  have hf := (promises_run inv_init fresh_init trace).1
  have hstable := (promises_run hs hf rest).2
  generalize run System.init trace = s at hs hf hstable
  refine ⟨fun h p hp => (hs.pending h p hp).2, hs.nodup, ?_, ?_, hs.no_raise, hstable⟩
  · intro message
    by_cases hl : s.tester._promise_map (messageHash message) = []
    · rw [passthroughIntercept_idle s.tester message hl]
    · rw [passthroughIntercept_broadcast s.tester message hl (hs.nodup _)
        (fun p hp => (hs.pending _ p hp).2)]
  · intro message h
    rw [resolveAll_pending message _ _ (hs.nodup h) (fun p hp => (hs.pending _ p hp).2)]

/-! ## C15: the key is injective on the triple -/

/-- C15: for message ids below `2^32` and system and component ids below `2^8`, the key
`recMessageHash` is `a * 2^16 + s * 2^8 + c`, fits in 64 bits, and two triples have the same
key exactly when they are equal. -/
theorem recMessageHash_injective (a s c a1 s1 c1 : Nat)
    (ha : a < 2 ^ 32) (hs : s < 2 ^ 8) (hc : c < 2 ^ 8)
    (ha1 : a1 < 2 ^ 32) (hs1 : s1 < 2 ^ 8) (hc1 : c1 < 2 ^ 8) :
    (recMessageHash a s c = recMessageHash a1 s1 c1 ↔ a = a1 ∧ s = s1 ∧ c = c1) ∧
    recMessageHash a s c = a * 2 ^ 16 + s * 2 ^ 8 + c ∧
    recMessageHash a s c < 2 ^ 64 := by
  have e := recMessageHash_eq_add a s c
  rw [Nat.mod_eq_of_lt ha, Nat.mod_eq_of_lt hs, Nat.mod_eq_of_lt hc] at e
  refine ⟨⟨recMessageHash_inj ha hs hc ha1 hs1 hc1, ?_⟩, by rw [e]; norm_num, by rw [e]; omega⟩
  rintro ⟨rfl, rfl, rfl⟩
  rfl

/-- An instance of C15: PARAM_VALUE from (1, 1) and from (1, 2). -/
theorem recMessageHash_injective_witness :
    (recMessageHash 22 1 1 = recMessageHash 22 1 2 ↔ 22 = 22 ∧ 1 = 1 ∧ 1 = 2) ∧
    recMessageHash 22 1 1 = 22 * 2 ^ 16 + 1 * 2 ^ 8 + 1 ∧
    recMessageHash 22 1 1 < 2 ^ 64 :=
  recMessageHash_injective 22 1 1 22 1 2 (by decide) (by decide) (by decide) (by decide)
    (by decide) (by decide)

/-! ## C16: waiters and backlog exclude each other -/

/-- C16: in every execution (events `onMessage`, `receive` with its fast path, wait and
timeout, `flush`, `flushAll`), no key has at once a non-empty waiter list and a non-empty
backlog. -/
theorem waiters_backlog_exclusive (trace : List Event) (h : Nat) :
    ¬ ((run System.init trace).tester._promise_map h ≠ [] ∧
      (run System.init trace).tester._message_queue_map h ≠ []) := by
  rintro ⟨h1, h2⟩
  rcases (inv_reachable trace).exclusive h with e | e
  · exact h1 e
  · exact h2 e

/-! ## C17: the overloads taking a `TestTargetAddress` -/

theorem uint8_t_lt (x : Int) : uint8_t x < 2 ^ 8 := by
  unfold uint8_t
  omega

theorem uint8_t_cast (x : Int) : (uint8_t x : Int) = x % 256 := by
  unfold uint8_t
  omega

theorem uint8_t_add_mul (x k : Int) : uint8_t (x + 256 * k) = uint8_t x := by
  unfold uint8_t
  have : (x + 256 * k) % 2 ^ 8 = x % 2 ^ 8 := by
    exact Int.add_mul_emod_self_left x 256 k
  rw [this]

/-- C17: the overloads of `receive`, `expectCondition` and `flush` that take a
`TestTargetAddress` pass its `int` fields for `uint8_t` parameters.  The ids they use are
`system_id mod 256` and `component_id mod 256`, both below 256; two targets whose ids differ
by multiples of 256 give the same calls; an inbound message has the key the overloads act
on exactly when its `msgid` is the id of `MSG` and its `sysid` and `compid` are these
residues; and no inbound message carries an id of the target that lies outside 0..255. -/
theorem target_overloads_narrow (s : System) (MSG : msg_helper)
    (target target1 : TestTargetAddress) (timeout_ms : Nat) (env : Slot)
    (observe_n timeout : Int) (condition : List Nat → Bool) (sched : List Slot)
    (message : mavlink_message_t)
    (hsame : ∃ k j : Int, target1.system_id = target.system_id + 256 * k ∧
      target1.component_id = target.component_id + 256 * j)
    (hin : message.inRange) (hid : MSG.ID < 2 ^ 32) :
    ((uint8_t target.system_id : Int) = target.system_id % 256 ∧
      (uint8_t target.component_id : Int) = target.component_id % 256 ∧
      uint8_t target.system_id < 256 ∧ uint8_t target.component_id < 256) ∧
    (receive_target s MSG target timeout_ms env =
        receive s MSG (target.system_id % 256).toNat (target.component_id % 256).toNat
          timeout_ms env ∧
      receive_target_default s MSG target env =
        receive s MSG (target.system_id % 256).toNat (target.component_id % 256).toNat 100 env ∧
      expectCondition_target s MSG target observe_n timeout condition sched =
        expectCondition s MSG (target.system_id % 256).toNat (target.component_id % 256).toNat
          observe_n timeout condition sched ∧
      flush_target s.tester MSG target =
        flush s.tester MSG (target.system_id % 256).toNat (target.component_id % 256).toNat) ∧
    (receive_target s MSG target1 timeout_ms env = receive_target s MSG target timeout_ms env ∧
      receive_target_default s MSG target1 env = receive_target_default s MSG target env ∧
      expectCondition_target s MSG target1 observe_n timeout condition sched =
        expectCondition_target s MSG target observe_n timeout condition sched ∧
      flush_target s.tester MSG target1 = flush_target s.tester MSG target) ∧
    (messageHash message =
        recMessageHash MSG.ID (uint8_t target.system_id) (uint8_t target.component_id) ↔
      message.msgid = MSG.ID ∧ (message.sysid : Int) = target.system_id % 256 ∧
        (message.compid : Int) = target.component_id % 256) ∧
    (¬ (0 ≤ target.system_id ∧ target.system_id < 256) →
      (message.sysid : Int) ≠ target.system_id) ∧
    (¬ (0 ≤ target.component_id ∧ target.component_id < 256) →
      (message.compid : Int) ≠ target.component_id) := by
  obtain ⟨k, j, hk, hj⟩ := hsame
  obtain ⟨r1, r2, r3⟩ := hin
  have e1 : uint8_t target1.system_id = uint8_t target.system_id := by
    rw [hk]; exact uint8_t_add_mul _ _
  have e2 : uint8_t target1.component_id = uint8_t target.component_id := by
    rw [hj]; exact uint8_t_add_mul _ _
  refine ⟨⟨uint8_t_cast _, uint8_t_cast _, uint8_t_lt _, uint8_t_lt _⟩,
    ⟨rfl, rfl, rfl, rfl⟩, ⟨?_, ?_, ?_, ?_⟩, ?_, ?_, ?_⟩
  · simp only [receive_target, e1, e2]
  · simp only [receive_target_default, e1, e2]
  · simp only [expectCondition_target, e1, e2]
  · simp only [flush_target, e1, e2]
  · have c1 := uint8_t_cast target.system_id
    have c2 := uint8_t_cast target.component_id
    constructor
    · intro h
      have := recMessageHash_inj (Nat.lt_trans r1 (by norm_num)) r2 r3 hid (uint8_t_lt _)
        (uint8_t_lt _) h
      refine ⟨this.1, ?_, ?_⟩
      · rw [this.2.1]; exact c1
      · rw [this.2.2]; exact c2
    · rintro ⟨h1, h2, h3⟩
      have h2n : message.sysid = uint8_t target.system_id := by omega
      have h3n : message.compid = uint8_t target.component_id := by omega
      unfold messageHash
      rw [h1, h2n, h3n]
  · intro hout heq
    have : (message.sysid : Int) < 256 := by exact_mod_cast r2
    omega
  · intro hout heq
    have : (message.compid : Int) < 256 := by exact_mod_cast r3
    omega

/-- An instance of C17: the targets (257, -255) and (1, 1). -/
theorem target_overloads_narrow_witness :
    flush_target (run System.init [.onMessage ⟨22, 1, 1, [5]⟩]).tester PARAM_VALUE ⟨257, -255⟩ =
      flush_target (run System.init [.onMessage ⟨22, 1, 1, [5]⟩]).tester PARAM_VALUE ⟨1, 1⟩ ∧
    (messageHash ⟨22, 1, 1, [5]⟩ = recMessageHash PARAM_VALUE.ID (uint8_t 257) (uint8_t (-255)) ↔
      (22 : Nat) = PARAM_VALUE.ID ∧ ((1 : Nat) : Int) = 257 % 256 ∧
        ((1 : Nat) : Int) = (-255) % 256) :=
  ⟨(target_overloads_narrow (run System.init [.onMessage ⟨22, 1, 1, [5]⟩]) PARAM_VALUE ⟨1, 1⟩
      ⟨257, -255⟩ 100 Slot.quiet 1 50 (fun d => d == [5]) [] ⟨22, 1, 1, [5]⟩
      ⟨1, -1, by decide, by decide⟩ (by decide) (by decide)).2.2.1.2.2.2,
    (target_overloads_narrow (run System.init [.onMessage ⟨22, 1, 1, [5]⟩]) PARAM_VALUE ⟨257, -255⟩
      ⟨257, -255⟩ 100 Slot.quiet 1 50 (fun d => d == [5]) [] ⟨22, 1, 1, [5]⟩
      ⟨0, 0, by decide, by decide⟩ (by decide) (by decide)).2.2.2.1⟩

end RASATestingSuite
